import Mathlib

/-!
# go-mongodb-api: pagination, sort resolution and filter building

A shallow embedding of `helpers/pagination.go`, of the methods of the ten repositories
under `repositories/` (`GetAll`, `GetByID`, `Create`, `Delete` and the field updates) on
an in-memory document store, of the create methods of `services/`, of the list, create
and update handlers of `handlers/` and of `config.Init`, followed by the properties
proved about them.

Go's `int` is taken at its 64-bit width (the width of every target the MongoDB driver
supports in production); `int` and `int64` values are mathematical integers in
`[-2^63, 2^63)` and every arithmetic operation that can leave this range is followed
by `wrap64`, the two's-complement wrap-around.
-/

namespace GoMongoApi

/-! ## Machine integers -/

/-- The smallest `int64` (and 64-bit `int`) value. -/
def MinInt64 : Int := -(2 ^ 63)

/-- The largest `int64` (and 64-bit `int`) value. -/
def MaxInt64 : Int := 2 ^ 63 - 1

/-- Membership in the range of a 64-bit signed integer. -/
def inInt64 (x : Int) : Prop := MinInt64 ≤ x ∧ x ≤ MaxInt64

instance (x : Int) : Decidable (inInt64 x) := by
  unfold inInt64; infer_instance

/-- Two's-complement wrap-around of a mathematical integer into the `int64` range:
what Go's `+`, `-` and `*` on 64-bit signed integers yield. -/
def wrap64 (x : Int) : Int := (x + 2 ^ 63) % 2 ^ 64 - 2 ^ 63

/-- Go's `/` on 64-bit signed integers with a non-zero divisor: the quotient truncated
toward zero, wrapped (only `MinInt64 / -1` wraps). -/
def goDiv (a b : Int) : Int := wrap64 (Int.tdiv a b)

/-! ## helpers/pagination.go -/

/-- The `Pagination` struct. `Page`, `Limit`, `TotalPages` are Go `int`, `Total` is
`int64`. -/
structure Pagination where
  Page : Int
  Limit : Int
  Total : Int
  TotalPages : Int
  HasMore : Bool
  deriving DecidableEq, Repr

/-- `GetSkip`: `(p.Page - 1) * p.Limit` in `int` arithmetic. -/
def Pagination.GetSkip (p : Pagination) : Int :=
  wrap64 (wrap64 (p.Page - 1) * p.Limit)

/-- `SetTotal`: stores the total, then `TotalPages = int((total + int64(Limit) - 1) /
int64(Limit))` and `HasMore = int64(Page*Limit) < total`. The result is `none` when the
division panics (divisor zero); the conversions between `int` and `int64` are the
identity at 64 bits. -/
def Pagination.SetTotal (p : Pagination) (total : Int) : Option Pagination :=
  if p.Limit = 0 then none
  else some
    { Page := p.Page
      Limit := p.Limit
      Total := total
      TotalPages := goDiv (wrap64 (wrap64 (total + p.Limit) - 1)) p.Limit
      HasMore := decide (wrap64 (p.Page * p.Limit) < total) }

/-- `NewPagination`: clamps the page to at least 1 and replaces a limit outside
`1..100` by 10; the remaining fields keep their zero values. -/
def NewPagination (page limit : Int) : Pagination :=
  let page := if page < 1 then 1 else page
  let limit := if limit < 1 ∨ limit > 100 then 10 else limit
  { Page := page, Limit := limit, Total := 0, TotalPages := 0, HasMore := false }

/-! ## The ten entities with a repository -/

/-- The entities that have a repository (one file each under `repositories/`). -/
inductive Entity
  | application
  | candidate
  | candidateSkill
  | company
  | job
  | jobCategory
  | jobSkill
  | recruiter
  | skill
  | user
  deriving DecidableEq, Repr

/-! ## Sort resolution in `GetAll` -/

/-- The `sortableFields` slice literal of each repository's `GetAll`. -/
def sortableFields : Entity → List String
  | .application => ["status", "job_id", "candidate_id", "applied_time"]
  | .candidate => ["first_name", "last_name", "email", "location", "created_time"]
  | .candidateSkill => ["candidate_id", "skill_id", "proficiency_level", "created_time"]
  | .company => ["name", "country", "city", "postal_code", "created_time"]
  | .job => ["title", "description", "location", "job_type", "status", "created_time"]
  | .jobCategory => ["name", "description", "created_time"]
  | .jobSkill => ["job_id", "skill_id", "proficiency_level_required", "created_time"]
  | .recruiter => ["first_name", "last_name", "email", "company_id", "created_time"]
  | .skill => ["name", "created_time"]
  | .user => ["first_name", "last_name", "email", "verified", "active", "created_time"]

/-- The initial value of `sortField` in each repository's `GetAll`. -/
def defaultSortField : Entity → String
  | .application => "applied_time"
  | _ => "created_time"

/-- The loop `for _, field := range sortableFields { if field == sort { sortField = sort;
break } }`, started with the current `sortField`. -/
def sortLoop (sort : String) : List String → String → String
  | [], sortField => sortField
  | field :: rest, sortField => if field = sort then sort else sortLoop sort rest sortField

/-- The field `GetAll` sorts by: the default, replaced by the loop when `sort != ""`. -/
def resolveSortField (e : Entity) (sort : String) : String :=
  if sort ≠ "" then sortLoop sort (sortableFields e) (defaultSortField e)
  else defaultSortField e

/-- The direction `GetAll` sorts in: `int32(-1)`, set to `1` when `order == "asc"`. -/
def resolveSortOrder (order : String) : Int :=
  if order = "asc" then 1 else -1

/-! ## Object ids -/

/-- A BSON object id: twelve bytes. -/
structure ObjectID where
  bytes : List Nat
  deriving DecidableEq, Repr

/-- The value of one hexadecimal digit, either case, as `encoding/hex` reads it. -/
def hexVal (c : Char) : Option Nat :=
  if '0' ≤ c ∧ c ≤ '9' then some (c.toNat - '0'.toNat)
  else if 'a' ≤ c ∧ c ≤ 'f' then some (c.toNat - 'a'.toNat + 10)
  else if 'A' ≤ c ∧ c ≤ 'F' then some (c.toNat - 'A'.toNat + 10)
  else none

/-- Decoding of a run of hexadecimal digits, two per byte. -/
def hexDecode : List Char → Option (List Nat)
  | [] => some []
  | [_] => none
  | hi :: lo :: rest =>
    match hexVal hi, hexVal lo, hexDecode rest with
    | some h, some l, some bs => some ((16 * h + l) :: bs)
    | _, _, _ => none

/-- The driver's `bson.ObjectIDFromHex`: an error (`none`) unless the string is 24 bytes
long and decodes as hexadecimal. -/
def ObjectIDFromHex (s : String) : Option ObjectID :=
  if s.utf8ByteSize ≠ 24 then none
  else (hexDecode s.data).map ObjectID.mk

/-! ## Filter expressions (`bson.M`) -/

/-- What a filter compares one field with: the document `bson.M{"$regex": pattern,
"$options": options}` or an object id. -/
inductive Match
  | regex (pattern options : String)
  | oid (id : ObjectID)
  deriving DecidableEq, Repr

/-- A value stored in the filter document: a comparison for the key's field, or, under
`"$or"`, a `bson.A` of one-key documents. -/
inductive FilterValue
  | is (m : Match)
  | anyOf (alts : List (String × Match))
  deriving DecidableEq, Repr

/-- The filter document, as the list of its keys in order of first assignment. -/
abbrev BsonM := List (String × FilterValue)

/-- The assignment `filter[k] = v` on a Go map. -/
def BsonM.set : BsonM → String → FilterValue → BsonM
  | [], k, v => [(k, v)]
  | (k', v') :: rest, k, v =>
    if k' = k then (k, v) :: rest else (k', v') :: BsonM.set rest k v

/-- The `filters map[string]string` argument: `filters k` is `some v` when the key exists. -/
abbrev Filters := String → Option String

/-- One step of filter building. -/
inductive FilterRule
  | substring (field : String)
  | identifier (field : String)
  | location
  deriving DecidableEq, Repr

/-- The key of the filters map that a step reads. -/
def FilterRule.key : FilterRule → String
  | .substring field => field
  | .identifier field => field
  | .location => "location"

/-- The steps of each repository's `GetAll`, in source order. A loop over a slice of
field names contributes one `substring` step per name. -/
def filterRules : Entity → List FilterRule
  | .application => [.substring "status", .identifier "job_id", .identifier "candidate_id"]
  | .candidate =>
    [.substring "first_name", .substring "last_name", .substring "email",
     .substring "location"]
  | .candidateSkill =>
    [.identifier "candidate_id", .identifier "skill_id", .substring "proficiency_level"]
  | .company =>
    [.substring "name", .location, .substring "country", .substring "city",
     .substring "postal_code"]
  | .job =>
    [.substring "title", .substring "description", .substring "location",
     .substring "job_type", .substring "status"]
  | .jobCategory => [.substring "name", .substring "description"]
  | .jobSkill =>
    [.identifier "job_id", .identifier "skill_id",
     .substring "proficiency_level_required"]
  | .recruiter =>
    [.substring "first_name", .substring "last_name", .substring "email",
     .identifier "company_id"]
  | .skill => [.substring "name"]
  | .user => [.substring "first_name", .substring "last_name", .substring "email"]

/-- One step applied to the filter under construction.

* `substring f`: `if value, exists := filters[f]; exists && value != ""` then
  `filter[f] = bson.M{"$regex": value, "$options": "i"}`;
* `identifier f`: under the same guard, `objID, err := bson.ObjectIDFromHex(value)` and
  `filter[f] = objID` only `if err == nil`;
* `location`: under the same guard on `filters["location"]`, `filter["$or"]` is the array
  of the three regex documents on `country`, `city`, `postal_code`. -/
def applyRule (filters : Filters) (filter : BsonM) : FilterRule → BsonM
  | .substring field =>
    match filters field with
    | some value => if value ≠ "" then filter.set field (.is (.regex value "i")) else filter
    | none => filter
  | .identifier field =>
    match filters field with
    | some value =>
      if value ≠ "" then
        match ObjectIDFromHex value with
        | some objID => filter.set field (.is (.oid objID))
        | none => filter
      else filter
    | none => filter
  | .location =>
    match filters "location" with
    | some location =>
      if location ≠ "" then
        filter.set "$or" (.anyOf
          [("country", .regex location "i"), ("city", .regex location "i"),
           ("postal_code", .regex location "i")])
      else filter
    | none => filter

/-- The filter `GetAll` builds, starting from `bson.M{}`. -/
def buildFilter (e : Entity) (filters : Filters) : BsonM :=
  (filterRules e).foldl (applyRule filters) []

/-! ## The store and `GetAll` -/

/-- A value of a stored document's field. -/
inductive BsonValue
  | str (s : String)
  | oid (id : ObjectID)
  | int (n : Int)
  | null
  | other
  deriving DecidableEq, Repr

/-- A stored document: its fields in order. -/
abbrev Document := List (String × BsonValue)

/-- The options `GetAll` passes to `Find`. -/
structure FindOptions where
  skip : Int
  limit : Int
  sort : String × Int
  deriving DecidableEq, Repr

/-- The two driver calls `GetAll` makes on its collection; either may fail. -/
structure Collection where
  CountDocuments : BsonM → Except String Int
  Find : BsonM → FindOptions → Except String (List Document)

/-- The `GetAll` method shared in shape by the ten repositories: normalise the
pagination, build the filter, count, resolve the sort, fetch the page. An error of
either driver call is returned as is (decoding the cursor is part of `Find`). -/
def GetAll (e : Entity) (c : Collection) (page limit : Int) (filters : Filters)
    (sort order : String) : Except String (List Document × Int) :=
  let pagination := NewPagination page limit
  let filter := buildFilter e filters
  match c.CountDocuments filter with
  | .error err => .error err
  | .ok total =>
    let sortField := resolveSortField e sort
    let sortOrder := resolveSortOrder order
    match c.Find filter
        { skip := pagination.GetSkip, limit := pagination.Limit,
          sort := (sortField, sortOrder) } with
    | .error err => .error err
    | .ok docs => .ok (docs, total)

/-! ## The store's matching of a filter against a document -/

/-- The characters PCRE gives a meaning to outside a character class. -/
def regexMeta : List Char :=
  ['\\', '^', '$', '.', '|', '?', '*', '+', '(', ')', '[', ']', Char.ofNat 123,
   Char.ofNat 125]

/-- Case folding under the regex options: with `i`, letters compare by their lower case. -/
def foldCase (options : String) (c : Char) : Char :=
  if options.data.contains 'i' then c.toLower else c

/-- Match of a pattern at the start of a text. A `.` matches any character but a line
feed; any other pattern character matches itself up to case folding. -/
def matchHere (fold : Char → Char) : List Char → List Char → Bool
  | [], _ => true
  | _ :: _, [] => false
  | p :: ps, t :: ts =>
    (if p = '.' then decide (t ≠ '\n') else decide (fold p = fold t)) && matchHere fold ps ts

/-- Unanchored match: the pattern matches at some position of the text. -/
def matchAnywhere (fold : Char → Char) (p : List Char) : List Char → Bool
  | [] => matchHere fold p []
  | t :: ts => matchHere fold p (t :: ts) || matchAnywhere fold p ts

/-- The store's `$regex` operator (PCRE, unanchored) on the patterns made of literal
characters and the wildcard `.`. The result is `none` for a pattern that uses any other
metacharacter: those patterns are not interpreted here. -/
def regexMatch (pattern options s : String) : Option Bool :=
  if pattern.data.all (fun c => c = '.' || !regexMeta.contains c) then
    some (matchAnywhere (foldCase options) pattern.data s.data)
  else none

/-- Whether a field value satisfies a comparison. A regex selects string values only; an
object id selects the equal object id. -/
def Match.holds (m : Match) (v : Option BsonValue) : Option Bool :=
  match m with
  | .regex pattern options =>
    match v with
    | some (.str s) => regexMatch pattern options s
    | _ => (regexMatch pattern options "").map (fun _ => false)
  | .oid id => some (decide (v = some (.oid id)))

/-- Whether a document satisfies at least one of the one-key documents of an `$or`. -/
def anyHolds (d : Document) : List (String × Match) → Option Bool
  | [] => some false
  | (field, m) :: rest =>
    match m.holds (d.lookup field), anyHolds d rest with
    | some a, some b => some (a || b)
    | _, _ => none

/-- Whether a document satisfies one entry of the filter document. -/
def FilterValue.holds (key : String) (d : Document) : FilterValue → Option Bool
  | .is m => m.holds (d.lookup key)
  | .anyOf alts => anyHolds d alts

/-- Whether the store selects a document under a filter: every entry must hold, so the
empty filter selects every document. -/
def selects : BsonM → Document → Option Bool
  | [], _ => some true
  | (key, v) :: rest, d =>
    match v.holds key d, selects rest d with
    | some a, some b => some (a && b)
    | _, _ => none

/-! ## The document store: collections and the driver calls on them

The store is modelled in memory: a collection is the list of its documents and the
database holds one collection per entity. Transport failures of the driver are not
modelled; the calls fail only where the store itself refuses the operation. -/

/-- The driver's `mongo.ErrNoDocuments`. -/
def ErrNoDocuments : String := "mongo: no documents in result"

/-- The driver's `bson.ErrInvalidHex`, the error of `ObjectIDFromHex`. -/
def ErrInvalidHex : String := "the provided hex string is not a valid ObjectID"

/-- The server's error on an insert whose `_id` is already stored in the collection. -/
def ErrDuplicateKey : String := "E11000 duplicate key error"

/-- The error standing for a query whose regex lies outside the interpreted patterns. -/
def ErrUninterpreted : String := "regular expression outside the interpreted patterns"

/-- The driver's `bson.NilObjectID`: twelve zero bytes, the zero value of an id field. -/
def NilObjectID : ObjectID := ⟨List.replicate 12 0⟩

/-- A collection: its stored documents, oldest first. -/
abbrev Coll := List Document

/-- The database: the collection of each entity (`jobs`, `jobcategories`, ...). -/
abbrev Database := Entity → Coll

/-- The filter `bson.M{key: objID}`. -/
def idFilter (key : String) (objID : ObjectID) : BsonM := [(key, .is (.oid objID))]

/-- Whether the store selects the document under the filter, as a test. -/
def isSelected (filter : BsonM) (d : Document) : Bool := selects filter d == some true

/-- `CountDocuments`: the number of stored documents the filter selects. -/
def CountDocuments (c : Coll) (filter : BsonM) : Except String Int :=
  if c.all (fun d => (selects filter d).isSome) then .ok (c.countP (isSelected filter))
  else .error ErrUninterpreted

/-- `FindOne(filter).Decode`: the first stored document the filter selects, or
`ErrNoDocuments`. -/
def FindOne (c : Coll) (filter : BsonM) : Except String Document :=
  match c.find? (isSelected filter) with
  | some d => .ok d
  | none => .error ErrNoDocuments

/-- `InsertOne`: a document without `_id` gets the freshly generated `newID`; the insert
is refused when the `_id` is already stored. The first component of the result is the
`InsertedID`. -/
def InsertOne (c : Coll) (doc : Document) (newID : ObjectID) :
    Except String (BsonValue × Coll) :=
  match doc.lookup "_id" with
  | some id =>
    if c.any (fun d => d.lookup "_id" == some id) then .error ErrDuplicateKey
    else .ok (id, c ++ [doc])
  | none =>
    if c.any (fun d => d.lookup "_id" == some (.oid newID)) then .error ErrDuplicateKey
    else .ok (.oid newID, c ++ [("_id", .oid newID) :: doc])

/-- The update `$set` of one field on a document: the field is replaced, or added when
missing. -/
def setField (k : String) (v : BsonValue) : Document → Document
  | [] => [(k, v)]
  | (k', v') :: rest => if k' = k then (k, v) :: rest else (k', v') :: setField k v rest

/-- The driver's `UpdateResult`, as far as the counts go. -/
structure UpdateResult where
  MatchedCount : Nat
  ModifiedCount : Nat
  deriving DecidableEq, Repr

/-- The first selected document of the collection replaced by its image under `f`. -/
def updateFirst (p : Document → Bool) (f : Document → Document) : Coll → Coll
  | [] => []
  | d :: rest => if p d then f d :: rest else d :: updateFirst p f rest

/-- `UpdateOne(filter, bson.M{"$set": bson.M{field: value}})`: the first selected
document gets the field set. Selecting no document is not an error: the result then
reports `MatchedCount = 0`. -/
def UpdateOne (c : Coll) (filter : BsonM) (field value : String) :
    Except String (UpdateResult × Coll) :=
  match c.find? (isSelected filter) with
  | some d =>
    .ok (⟨1, if d.lookup field = some (.str value) then 0 else 1⟩,
      updateFirst (isSelected filter) (setField field (.str value)) c)
  | none => .ok (⟨0, 0⟩, c)

/-- `DeleteOne(filter)`: the first selected document is removed; the first component of
the result is the `DeletedCount`. -/
def DeleteOne (c : Coll) (filter : BsonM) : Except String (Nat × Coll) :=
  .ok (if c.any (isSelected filter) then 1 else 0, c.eraseP (isSelected filter))

/-- The in-memory collection as `GetAll` sees it. The page fetch `find` (ordering,
skipping and limiting are the store's) is left open. -/
def memCollection (c : Coll)
    (find : Coll → BsonM → FindOptions → Except String (List Document)) : Collection :=
  { CountDocuments := CountDocuments c, Find := find c }

/-! ## Entities as Go structs, and the repository methods by id -/

/-- A model struct (`models.Job`, `models.User`, ...): the `ID` field, tagged
`bson:"_id,omitempty"`, and the other fields under their BSON names. -/
structure Model where
  ID : ObjectID
  fields : Document
  deriving DecidableEq, Repr

/-- BSON encoding of a struct: `_id` is left out when `ID` is the zero id. -/
def Model.marshal (m : Model) : Document :=
  if m.ID = NilObjectID then m.fields else ("_id", .oid m.ID) :: m.fields

/-- Decoding of a stored document into a struct. -/
def Model.decode (d : Document) : Model :=
  { ID := match d.lookup "_id" with
      | some (.oid id) => id
      | _ => NilObjectID
    fields := d.filter (fun kv => kv.1 != "_id") }

/-- An object id field of a struct (`job.RecruiterID`, ...): the zero id when unset. -/
def Model.ref (m : Model) (k : String) : ObjectID :=
  match m.fields.lookup k with
  | some (.oid id) => id
  | _ => NilObjectID

/-- `GetByID`, the same in the ten repositories: parse the id, then `FindOne` on
`bson.M{"_id": objID}` and decode. Either error is returned with no entity. -/
def GetByID (c : Coll) (id : String) : Except String Model :=
  match ObjectIDFromHex id with
  | none => .error ErrInvalidHex
  | some objID =>
    match FindOne c (idFilter "_id" objID) with
    | .error err => .error err
    | .ok d => .ok (Model.decode d)

/-- `Create`, the same in the ten repositories. The result is the collection, the struct
behind the pointer and the returned error after the call: on an insert error nothing
changes; otherwise the `InsertedID`, when it is an object id, is stored into `ID`. -/
def Create (c : Coll) (e : Model) (newID : ObjectID) : Coll × Model × Option String :=
  match InsertOne c e.marshal newID with
  | .error err => (c, e, some err)
  | .ok (insertedID, c') =>
    match insertedID with
    | .oid objID => (c', { e with ID := objID }, none)
    | _ => (c', e, none)

/-- The body shared by `UpdateStatus` and the two `UpdateProficiencyLevel` methods: an
empty value returns `ErrNoDocuments` at once; otherwise the id is parsed and `UpdateOne`
sets the field, its `UpdateResult` being discarded. -/
def updateField (field : String) (c : Coll) (id value : String) : Coll × Option String :=
  if value = "" then (c, some ErrNoDocuments)
  else
    match ObjectIDFromHex id with
    | none => (c, some ErrInvalidHex)
    | some objID =>
      match UpdateOne c (idFilter "_id" objID) field value with
      | .error err => (c, some err)
      | .ok (_, c') => (c', none)

/-- `ApplicationRepository.UpdateStatus`. -/
def ApplicationRepository.UpdateStatus (c : Coll) (id status : String) :
    Coll × Option String :=
  updateField "status" c id status

/-- `CandidateSkillRepository.UpdateProficiencyLevel`. -/
def CandidateSkillRepository.UpdateProficiencyLevel (c : Coll) (id proficiencyLevel : String) :
    Coll × Option String :=
  updateField "proficiency_level" c id proficiencyLevel

/-- `JobSkillRepository.UpdateProficiencyLevel`. -/
def JobSkillRepository.UpdateProficiencyLevel (c : Coll) (id proficiencyLevel : String) :
    Coll × Option String :=
  updateField "proficiency_level_required" c id proficiencyLevel

/-- `Delete`, the same in nine repositories: parse the id, `DeleteOne` on
`bson.M{"_id": objID}`, and `ErrNoDocuments` when `DeletedCount == 0`. -/
def Delete (c : Coll) (id : String) : Coll × Option String :=
  match ObjectIDFromHex id with
  | none => (c, some ErrInvalidHex)
  | some objID =>
    match DeleteOne c (idFilter "_id" objID) with
    | .error err => (c, some err)
    | .ok (deletedCount, c') =>
      if deletedCount = 0 then (c', some ErrNoDocuments) else (c', none)

/-- `JobCategoryRepository.Delete`: after parsing the id, the jobs whose `category_id`
is the id are counted and a positive count returns `ErrNoDocuments`; only then the
category is deleted as in the other repositories. -/
def JobCategoryRepository.Delete (db : Database) (id : String) : Database × Option String :=
  match ObjectIDFromHex id with
  | none => (db, some ErrInvalidHex)
  | some objID =>
    match CountDocuments (db .job) (idFilter "category_id" objID) with
    | .error err => (db, some err)
    | .ok jobCount =>
      if jobCount > 0 then (db, some ErrNoDocuments)
      else
        match DeleteOne (db .jobCategory) (idFilter "_id" objID) with
        | .error err => (db, some err)
        | .ok (deletedCount, c') =>
          if deletedCount = 0 then
            (Function.update db .jobCategory c', some ErrNoDocuments)
          else (Function.update db .jobCategory c', none)

/-- The `Delete` method of the repository of entity `e`, on the database. -/
def Repository.Delete (e : Entity) (db : Database) (id : String) : Database × Option String :=
  match e with
  | .jobCategory => JobCategoryRepository.Delete db id
  | _ => (Function.update db e (GoMongoApi.Delete (db e) id).1, (GoMongoApi.Delete (db e) id).2)

/-- The ids stored in a collection. -/
def storedIDs (c : Coll) : List (Option BsonValue) := c.map (fun d => d.lookup "_id")

/-- The store's invariant on a collection: every document has an `_id` and no two
documents share it (the unique index on `_id`). -/
def UniqueIDs (c : Coll) : Prop :=
  (storedIDs c).Nodup ∧ ∀ d ∈ c, (d.lookup "_id").isSome = true

/-- The `GetByID` method of the repository of entity `e`, on the database. -/
def Repository.GetByID (e : Entity) (db : Database) (id : String) : Except String Model :=
  GoMongoApi.GetByID (db e) id

/-- The `Create` method of the repository of entity `e`, on the database. -/
def Repository.Create (e : Entity) (db : Database) (m : Model) (newID : ObjectID) :
    Database × Model × Option String :=
  (Function.update db e (GoMongoApi.Create (db e) m newID).1,
    (GoMongoApi.Create (db e) m newID).2.1, (GoMongoApi.Create (db e) m newID).2.2)

/-- A struct is well formed when `_id` occurs among its fields only as `ID`. -/
def Model.WF (m : Model) : Prop := m.fields.lookup "_id" = none

instance (m : Model) : Decidable m.WF := by
  unfold Model.WF; infer_instance

/-- Two stored skills, `Go` and `Rust`, for concrete evaluation. -/
def skillStore : Coll :=
  [[("_id", .oid ⟨[1, 1, 1, 1, 1, 1, 1, 1, 1, 1, 1, 1]⟩), ("name", .str "Go")],
   [("_id", .oid ⟨[2, 2, 2, 2, 2, 2, 2, 2, 2, 2, 2, 2]⟩), ("name", .str "Rust")]]

/-- A page fetch that returns the selected documents unordered and unpaged, for concrete
evaluation. -/
def plainFind (c : Coll) (filter : BsonM) (_ : FindOptions) : Except String (List Document) :=
  .ok (c.filter (isSelected filter))

instance (c : Coll) : Decidable (UniqueIDs c) := by
  unfold UniqueIDs; infer_instance

/-- A database holding the two skills and nothing else. -/
def skillDB : Database := fun e =>
  match e with
  | .skill => skillStore
  | _ => []

/-- A new skill struct, with the zero id. -/
def newSkill : Model := { ID := NilObjectID, fields := [("name", .str "Lean")] }

/-- A stored application with status `applied`, for concrete evaluation. -/
def applicationStore : Coll :=
  [[("_id", .oid ⟨[1, 1, 1, 1, 1, 1, 1, 1, 1, 1, 1, 1]⟩), ("status", .str "applied")]]

/-- A database with one job category and one job of that category. -/
def categoryDB : Database := fun e =>
  match e with
  | .jobCategory =>
    [[("_id", .oid ⟨[4, 4, 4, 4, 4, 4, 4, 4, 4, 4, 4, 4]⟩), ("name", .str "Engineering")]]
  | .job =>
    [[("_id", .oid ⟨[5, 5, 5, 5, 5, 5, 5, 5, 5, 5, 5, 5]⟩), ("title", .str "Lean developer"),
      ("category_id", .oid ⟨[4, 4, 4, 4, 4, 4, 4, 4, 4, 4, 4, 4]⟩)]]
  | _ => []

/-! ## Services: reference checks on create -/

/-- One hexadecimal digit, lower case, as `encoding/hex` writes it. -/
def hexDigit (n : Nat) : Char :=
  if n < 10 then Char.ofNat (48 + n) else Char.ofNat (87 + n)

/-- The driver's `ObjectID.Hex`: two lower-case hexadecimal digits per byte. -/
def ObjectID.Hex (id : ObjectID) : String :=
  ⟨id.bytes.flatMap (fun b => [hexDigit (b / 16), hexDigit (b % 16)])⟩

/-- An object id as Go holds it: twelve bytes. -/
def ObjectID.valid (id : ObjectID) : Prop :=
  id.bytes.length = 12 ∧ ∀ b ∈ id.bytes, b < 256

instance (id : ObjectID) : Decidable id.valid := by
  unfold ObjectID.valid; infer_instance

/-- The check `if repo != nil { _, err := repo.GetByID(ctx, id.Hex()); if err != nil`:
true when the dependency is wired and the lookup returns an error. -/
def referenceMissing (wired : Bool) (c : Coll) (id : ObjectID) : Bool :=
  wired &&
    match GetByID c id.Hex with
    | .error _ => true
    | .ok _ => false

/-- The lookup of a referenced entity fails: `GetByID` on the hex form of the id returns
an error. -/
def lookupFails (c : Coll) (id : ObjectID) : Prop :=
  ∃ err, GetByID c id.Hex = .error err

/-- `JobService`: which of the dependency repositories are wired (non-nil). The job
repository itself is always present. -/
structure JobService where
  recruiterRepo : Bool
  companyRepo : Bool
  categoryRepo : Bool
  deriving DecidableEq, Repr

/-- `NewJobService`: no dependency repository. -/
def NewJobService : JobService := ⟨false, false, false⟩

/-- `NewJobServiceWithDeps`, called with the three repositories. -/
def NewJobServiceWithDeps : JobService := ⟨true, true, true⟩

/-- `JobService.CreateJob`: recruiter, company and category are looked up in this order,
each only when its repository is wired; the first failure returns its message and
nothing else happens; otherwise the job repository's `Create` runs. -/
def JobService.CreateJob (s : JobService) (db : Database) (job : Model) (newID : ObjectID) :
    Database × Model × Option String :=
  if referenceMissing s.recruiterRepo (db .recruiter) (job.ref "recruiter_id") then
    (db, job, some "recruiter not found")
  else if referenceMissing s.companyRepo (db .company) (job.ref "company_id") then
    (db, job, some "company not found")
  else if referenceMissing s.categoryRepo (db .jobCategory) (job.ref "category_id") then
    (db, job, some "job category not found")
  else Repository.Create .job db job newID

/-- `ApplicationService`: which of the dependency repositories are wired. -/
structure ApplicationService where
  jobRepo : Bool
  candidateRepo : Bool
  deriving DecidableEq, Repr

/-- `NewApplicationService`: no dependency repository. -/
def NewApplicationService : ApplicationService := ⟨false, false⟩

/-- `NewApplicationServiceWithDeps`, called with the two repositories. -/
def NewApplicationServiceWithDeps : ApplicationService := ⟨true, true⟩

/-- `ApplicationService.CreateApplication`: job, then candidate, then `Create`. -/
def ApplicationService.CreateApplication (s : ApplicationService) (db : Database)
    (application : Model) (newID : ObjectID) : Database × Model × Option String :=
  if referenceMissing s.jobRepo (db .job) (application.ref "job_id") then
    (db, application, some "job not found")
  else if referenceMissing s.candidateRepo (db .candidate)
      (application.ref "candidate_id") then
    (db, application, some "candidate not found")
  else Repository.Create .application db application newID

/-- `CandidateSkillService`: which of the dependency repositories are wired. -/
structure CandidateSkillService where
  candidateRepo : Bool
  skillRepo : Bool
  deriving DecidableEq, Repr

/-- `NewCandidateSkillService`: no dependency repository. -/
def NewCandidateSkillService : CandidateSkillService := ⟨false, false⟩

/-- `NewCandidateSkillServiceWithDeps`, called with the two repositories. -/
def NewCandidateSkillServiceWithDeps : CandidateSkillService := ⟨true, true⟩

/-- `CandidateSkillService.CreateCandidateSkill`: candidate, then skill, then `Create`. -/
def CandidateSkillService.CreateCandidateSkill (s : CandidateSkillService) (db : Database)
    (candidateSkill : Model) (newID : ObjectID) : Database × Model × Option String :=
  if referenceMissing s.candidateRepo (db .candidate)
      (candidateSkill.ref "candidate_id") then
    (db, candidateSkill, some "candidate not found")
  else if referenceMissing s.skillRepo (db .skill) (candidateSkill.ref "skill_id") then
    (db, candidateSkill, some "skill not found")
  else Repository.Create .candidateSkill db candidateSkill newID

/-- `JobSkillService`: which of the dependency repositories are wired. -/
structure JobSkillService where
  jobRepo : Bool
  skillRepo : Bool
  deriving DecidableEq, Repr

/-- `NewJobSkillService`: no dependency repository. -/
def NewJobSkillService : JobSkillService := ⟨false, false⟩

/-- `NewJobSkillServiceWithDeps`, called with the two repositories. -/
def NewJobSkillServiceWithDeps : JobSkillService := ⟨true, true⟩

/-- `JobSkillService.CreateJobSkill`: job, then skill, then `Create`. -/
def JobSkillService.CreateJobSkill (s : JobSkillService) (db : Database)
    (jobSkill : Model) (newID : ObjectID) : Database × Model × Option String :=
  if referenceMissing s.jobRepo (db .job) (jobSkill.ref "job_id") then
    (db, jobSkill, some "job not found")
  else if referenceMissing s.skillRepo (db .skill) (jobSkill.ref "skill_id") then
    (db, jobSkill, some "skill not found")
  else Repository.Create .jobSkill db jobSkill newID

/-- `RecruiterService.CreateRecruiter`: the service holds the recruiter repository only
and hands the recruiter to its `Create`. -/
def RecruiterService.CreateRecruiter (db : Database) (recruiter : Model) (newID : ObjectID) :
    Database × Model × Option String :=
  Repository.Create .recruiter db recruiter newID

/-- A job struct whose three references name documents that are not stored. -/
def orphanJob : Model :=
  { ID := NilObjectID
    fields :=
      [("title", .str "Lean developer"),
       ("recruiter_id", .oid ⟨[9, 9, 9, 9, 9, 9, 9, 9, 9, 9, 9, 9]⟩),
       ("company_id", .oid ⟨[8, 8, 8, 8, 8, 8, 8, 8, 8, 8, 8, 8]⟩),
       ("category_id", .oid ⟨[4, 4, 4, 4, 4, 4, 4, 4, 4, 4, 4, 4]⟩)] }

/-- A recruiter struct whose company reference is present and names no stored company. -/
def orphanRecruiter : Model :=
  { ID := NilObjectID
    fields :=
      [("first_name", .str "Ada"),
       ("company_id", .oid ⟨[8, 8, 8, 8, 8, 8, 8, 8, 8, 8, 8, 8]⟩)] }

instance (c : Coll) (id : ObjectID) : Decidable (lookupFails c id) :=
  match h : GetByID c id.Hex with
  | .error err => isTrue ⟨err, h⟩
  | .ok m => isFalse (fun ⟨err, he⟩ => by rw [h] at he; cases he)

/-- The skills database with the recruiter `09..09` stored. -/
def recruiterDB : Database :=
  Function.update skillDB .recruiter [[("_id", .oid ⟨[9, 9, 9, 9, 9, 9, 9, 9, 9, 9, 9, 9]⟩)]]

/-- The recruiter database with the company `08..08` stored as well. -/
def companyDB : Database :=
  Function.update recruiterDB .company [[("_id", .oid ⟨[8, 8, 8, 8, 8, 8, 8, 8, 8, 8, 8, 8]⟩)]]

/-- A database with the job `05..05`, the two skills and no candidate. -/
def linkDB : Database := Function.update categoryDB .skill skillStore

/-- The link database with the candidate `06..06` stored as well. -/
def candidateDB : Database :=
  Function.update linkDB .candidate [[("_id", .oid ⟨[6, 6, 6, 6, 6, 6, 6, 6, 6, 6, 6, 6]⟩)]]

/-- A join struct (application, candidate skill or job skill) that references the job
`05..05`, the candidate `06..06` and the skill `03..03`. -/
def orphanLink : Model :=
  { ID := NilObjectID
    fields :=
      [("job_id", .oid ⟨[5, 5, 5, 5, 5, 5, 5, 5, 5, 5, 5, 5]⟩),
       ("candidate_id", .oid ⟨[6, 6, 6, 6, 6, 6, 6, 6, 6, 6, 6, 6]⟩),
       ("skill_id", .oid ⟨[3, 3, 3, 3, 3, 3, 3, 3, 3, 3, 3, 3]⟩)] }

/-- Case-insensitive containment of `v` in `s`: the lower-cased characters of `v` occur
consecutively in the lower-cased characters of `s`. -/
def containsIgnoreCase (s v : String) : Prop :=
  (v.data.map Char.toLower) <:+: (s.data.map Char.toLower)

instance (s v : String) : Decidable (containsIgnoreCase s v) := by
  unfold containsIgnoreCase; infer_instance

/-- The value of a filters key as a step sees it: absent when the key is missing or its
value is the empty string. -/
def effective (filters : Filters) (k : String) : Option String :=
  match filters k with
  | some v => if v ≠ "" then some v else none
  | none => none

/-- A step as a function of the effective value of its key. -/
def applyEffective (filter : BsonM) : FilterRule → Option String → BsonM
  | _, none => filter
  | .substring field, some value => filter.set field (.is (.regex value "i"))
  | .identifier field, some value =>
    match ObjectIDFromHex value with
    | some objID => filter.set field (.is (.oid objID))
    | none => filter
  | .location, some location =>
    filter.set "$or" (.anyOf
      [("country", .regex location "i"), ("city", .regex location "i"),
       ("postal_code", .regex location "i")])

/-- A valid object id in text form: exactly 24 hexadecimal digits. -/
def isObjectIDHex (s : String) : Prop :=
  s.length = 24 ∧ ∀ c ∈ s.data, (hexVal c).isSome = true

/-- The identifier-type filters named by the interface: entity and key. -/
def identifierFilters : List (Entity × String) :=
  [(.application, "job_id"), (.application, "candidate_id"),
   (.candidateSkill, "candidate_id"), (.candidateSkill, "skill_id"),
   (.jobSkill, "job_id"), (.jobSkill, "skill_id"), (.recruiter, "company_id")]

/-- A filters map as a company list request builds it: `name` present but empty, `city`
set, every other key missing. -/
def companyQuery : Filters := fun k =>
  if k = "name" then some "" else if k = "city" then some "paris" else none

/-- A filters map in which every key exists with the empty value, as a list handler
builds it from a request without query parameters. -/
def blankQuery : Filters := fun _ => some ""

/-- A filters map of an application list request with a status only. -/
def statusQuery : Filters := fun k => if k = "status" then some "applied" else none

/-- The filters map holding the single key `field` with value `v`. -/
def singleFilter (field v : String) : Filters :=
  Function.update (fun _ => none) field (some v)

/-- A pattern without metacharacters: every character stands for itself. -/
def isLiteralPattern (v : String) : Prop :=
  ∀ c ∈ v.data, regexMeta.contains c = false

/-- The three one-key regex documents that the company location filter puts under
`"$or"`. -/
def locationAlts (v : String) : List (String × Match) :=
  [("country", .regex v "i"), ("city", .regex v "i"), ("postal_code", .regex v "i")]

/-- What a substring step on key `k` adds to the filter: one regex entry when the key
has an effective value, nothing otherwise. -/
def regexEntry (filters : Filters) (k : String) : BsonM :=
  match effective filters k with
  | some x => [(k, .is (.regex x "i"))]
  | none => []

/-- A filters map of a company list request with a location and a name. -/
def locationQuery : Filters := fun k =>
  if k = "location" then some "paris" else if k = "name" then some "acme" else none

/-! ## `strconv.Atoi` -/

/-- The value of a run of ASCII digits read after `acc`; `none` at the first character
that is not a digit. -/
def parseDigits (acc : Nat) : List Char → Option Nat
  | [] => some acc
  | c :: cs => if c.isDigit then parseDigits (10 * acc + (c.toNat - 48)) cs else none

/-- The integer a decimal numeral denotes: an optional sign `+` or `-` followed by at
least one ASCII digit, and nothing else. -/
def decimalValue (s : String) : Option Int :=
  match s.data with
  | [] => none
  | '-' :: ds => if ds = [] then none else (parseDigits 0 ds).map (fun n => -(n : Int))
  | '+' :: ds => if ds = [] then none else (parseDigits 0 ds).map (fun n => (n : Int))
  | ds => (parseDigits 0 ds).map (fun n => (n : Int))

/-- The standard library's `strconv.Atoi` at 64 bits: the value of a decimal numeral that
fits `int`, an error (`none`) for any other string. -/
def Atoi (s : String) : Option Int :=
  match decimalValue s with
  | some n => if MinInt64 ≤ n ∧ n ≤ MaxInt64 then some n else none
  | none => none

/-! ## config/config.go -/

/-- The process environment (after `godotenv.Load`): `env k` is `some v` when the
variable is set, possibly to the empty string. -/
abbrev Env := String → Option String

/-- The standard library's `os.Getenv`: the value, empty if the variable is not present. -/
def Getenv (env : Env) (k : String) : String := (env k).getD ""

/-- The `Config` struct; `Timeout` is a `time.Duration`, in nanoseconds. -/
structure Config where
  MongoURI : String
  Port : String
  Timeout : Int
  deriving DecidableEq, Repr

/-- `isValidMongoURI`: the string starts with `mongodb://` or `mongodb+srv://`. -/
def isValidMongoURI (uri : String) : Bool :=
  "mongodb://".data.isPrefixOf uri.data || "mongodb+srv://".data.isPrefixOf uri.data

/-- `isValidPort`: the error, if any. The port must pass `strconv.Atoi` and lie in
`1..65535`. -/
def isValidPort (port : String) : Option String :=
  match Atoi port with
  | none => some ("invalid port '" ++ port ++ "': not a number")
  | some portNum =>
    if portNum < 1 ∨ portNum > 65535 then
      some ("invalid port " ++ toString portNum ++ ": must be between 1 and 65535")
    else none

/-- The standard library's `time.Second`, in nanoseconds. -/
def Second : Int := 1000000000

/-- `Init`: the port (default `8080` when `PORT` reads empty) must be valid; a `TIMEOUT`
that does not parse or is not positive only logs a warning and keeps the default of 30
seconds; `MONGO_URI` must be non-empty and valid. -/
def Init (env : Env) : Except String Config :=
  let port := if Getenv env "PORT" = "" then "8080" else Getenv env "PORT"
  match isValidPort port with
  | some err => .error ("invalid PORT configuration: " ++ err)
  | none =>
    let timeout :=
      if Getenv env "TIMEOUT" ≠ "" then
        match Atoi (Getenv env "TIMEOUT") with
        | none => wrap64 (30 * Second)
        | some t => if t ≤ 0 then wrap64 (30 * Second) else wrap64 (t * Second)
      else wrap64 (30 * Second)
    let mongoURI := Getenv env "MONGO_URI"
    if mongoURI = "" then .error "MONGO_URI not found in environment variables"
    else if ¬ isValidMongoURI mongoURI then
      .error "invalid MONGO_URI: must start with 'mongodb://' or 'mongodb+srv://'"
    else .ok { MongoURI := mongoURI, Port := port, Timeout := timeout }

/-- An environment with `PORT` set to the empty string and a valid connection string. -/
def emptyPortEnv : Env := fun k =>
  if k = "PORT" then some "" else if k = "MONGO_URI" then some "mongodb://localhost:27017"
  else none

/-- An environment with `TIMEOUT` set to `abc` and a valid connection string. -/
def badTimeoutEnv : Env := fun k =>
  if k = "TIMEOUT" then some "abc"
  else if k = "MONGO_URI" then some "mongodb://localhost:27017" else none

/-- An environment with `PORT` set to `70000` and a valid connection string. -/
def badPortEnv : Env := fun k =>
  if k = "PORT" then some "70000"
  else if k = "MONGO_URI" then some "mongodb://localhost:27017" else none

/-- An environment with a connection string of another scheme. -/
def badURIEnv : Env := fun k => if k = "MONGO_URI" then some "postgres://localhost" else none

/-- An environment with a valid connection string and nothing else. -/
def defaultEnv : Env := fun k =>
  if k = "MONGO_URI" then some "mongodb://localhost:27017" else none

/-- An environment with nothing set. -/
def emptyEnv : Env := fun _ => none

/-! ## handlers: responses and the list handlers -/

/-- `helpers.ValidationError`. -/
structure ValidationError where
  Field : String
  Message : String
  deriving DecidableEq, Repr

/-- What a handler writes as the response body: the text of `http.Error`, an
`ErrorResponse`, a `PaginatedResponse`, one entity, or nothing. -/
inductive Body
  | text (s : String)
  | errors (l : List ValidationError)
  | page (data : List Document) (pagination : Pagination)
  | entity (m : Model)
  | empty
  deriving DecidableEq, Repr

/-- The HTTP response of a handler: status code and body. -/
structure Response where
  status : Nat
  body : Body
  deriving DecidableEq, Repr

/-- The parsing of `page` and `limit` in every list handler: the default, replaced by
the result of `strconv.Atoi` when the string is not empty and parses. -/
def queryInt (s : String) (dflt : Int) : Int :=
  if s ≠ "" then
    match Atoi s with
    | some p => p
    | none => dflt
  else dflt

/-- The keys of the `filters` map literal of each list handler. -/
def handlerFilterKeys : Entity → List String
  | .application => ["status", "job_id", "candidate_id"]
  | .candidate => ["first_name", "last_name", "email", "location"]
  | .candidateSkill => ["candidate_id", "skill_id", "proficiency_level"]
  | .company => ["name", "location", "country", "city", "postal_code"]
  | .job => ["title", "description", "location", "job_type", "status"]
  | .jobCategory => ["name", "description"]
  | .jobSkill => ["job_id", "skill_id", "proficiency_level_required"]
  | .recruiter => ["first_name", "last_name", "email", "company_id"]
  | .skill => ["name"]
  | .user => ["first_name", "last_name", "email"]

/-- The `filters` map a list handler builds: each of its keys with the value of the
query parameter, empty when the parameter is missing. -/
def handlerFilters (e : Entity) (query : String → String) : Filters := fun k =>
  if k ∈ handlerFilterKeys e then some (query k) else none

/-- The entity's name in the error text of its list handler. -/
def pluralName : Entity → String
  | .application => "applications"
  | .candidate => "candidates"
  | .candidateSkill => "candidate skills"
  | .company => "companies"
  | .job => "jobs"
  | .jobCategory => "job categories"
  | .jobSkill => "job skills"
  | .recruiter => "recruiters"
  | .skill => "skills"
  | .user => "users"

/-- The list handler of entity `e` (`GetAllJobs`, `GetAllApplications`, ...): `query k`
is `r.URL.Query().Get(k)`. The service hands the call to the repository's `GetAll`; an
error answers 500, otherwise the page is wrapped with
`NewPagination(page, limit)` after `SetTotal(total)`. The result is `none` if `SetTotal`
panics. -/
def GetAllHandler (e : Entity) (c : Collection) (query : String → String) :
    Option Response :=
  let page := queryInt (query "page") 1
  let limit := queryInt (query "limit") 10
  let filters := handlerFilters e query
  let sort := query "sort"
  let order := query "order"
  match GetAll e c page limit filters sort order with
  | .error _ => some ⟨500, .text ("Failed to retrieve " ++ pluralName e)⟩
  | .ok (data, total) =>
    match (NewPagination page limit).SetTotal total with
    | none => none
    | some pagination => some ⟨200, .page data pagination⟩

/-- A skills list request for page 2 with one skill per page. -/
def pageTwoQuery : String → String := fun k =>
  if k = "page" then "2" else if k = "limit" then "1" else ""

/-! ## handlers: create and update -/

/-- An `int` field of a struct (`job.SalaryMin`, ...): zero when unset. -/
def Model.int (m : Model) (k : String) : Int :=
  match m.fields.lookup k with
  | some (.int n) => n
  | _ => 0

/-- Assignment to a field of a struct. -/
def Model.set (m : Model) (k : String) (v : BsonValue) : Model :=
  { m with fields := setField k v m.fields }

/-- The audit stamping of a create handler: the creation time field (`created_time`,
or `applied_time` for applications) and `updated_time` get the two readings of
`time.Now()`, and `created_by`, `updated_by` get `"system"`. -/
def stampAudit (createdKey : String) (t1 t2 : BsonValue) (m : Model) : Model :=
  (((m.set createdKey t1).set "updated_time" t2).set "created_by" (.str "system")).set
    "updated_by" (.str "system")

/-- The validation entry the job create handler adds for the salary range. -/
def salaryError : ValidationError :=
  ⟨"salary_max", "must be greater than or equal to salary_min"⟩

/-- `JobHandler.CreateJob`. `body` is the decoded request body (`none` when decoding
fails), `validate` is `helpers.ValidateStruct`, `service` is `h.service.CreateJob` and
`t1`, `t2` are the two readings of `time.Now()`. The salary entry is appended when
`SalaryMax < SalaryMin`; any validation entry answers 400 before the service is
called. -/
def JobHandler.CreateJob (validate : Model → List ValidationError)
    (service : Model → Database × Model × Option String) (db : Database)
    (body : Option Model) (t1 t2 : BsonValue) : Database × Response :=
  match body with
  | none => (db, ⟨400, .text "Invalid request body"⟩)
  | some job =>
    let validationErrors :=
      if job.int "salary_max" < job.int "salary_min" then validate job ++ [salaryError]
      else validate job
    if validationErrors.length > 0 then (db, ⟨400, .errors validationErrors⟩)
    else
      match service (stampAudit "created_time" t1 t2 job) with
      | (db', _, some _) => (db', ⟨500, .text "Failed to create job"⟩)
      | (db', job', none) => (db', ⟨201, .entity job'⟩)

/-- `ApplicationHandler.UpdateApplicationStatus`. `body` is the `status` of the decoded
request body (`none` when decoding fails, the empty string when the key is missing). The
service hands the call to `ApplicationRepository.UpdateStatus`. -/
def ApplicationHandler.UpdateApplicationStatus (db : Database) (applicationID : String)
    (body : Option String) : Database × Response :=
  match body with
  | none => (db, ⟨400, .text "Invalid request body"⟩)
  | some status =>
    match ApplicationRepository.UpdateStatus (db .application) applicationID status with
    | (_, some _) => (db, ⟨500, .text "Failed to update application"⟩)
    | (c', none) => (Function.update db .application c', ⟨200, .empty⟩)

/-- The values the `oneof` tag of `Application.Status` allows. -/
def applicationStatuses : List String :=
  ["applied", "under_review", "rejected", "accepted", "withdrawn"]

/-- Every stored application has one of the allowed statuses. -/
def statusInvariant (c : Coll) : Prop :=
  ∀ d ∈ c, ∃ st ∈ applicationStatuses, d.lookup "status" = some (.str st)

instance (c : Coll) : Decidable (statusInvariant c) := by
  unfold statusInvariant; infer_instance

/-- What an update of `field` on the document with id `objID` may do to a stored
document `x`, `y` being the document after the update: a document with another id is
unchanged, and no field other than `field` is changed. -/
def onlyFieldChanged (field : String) (objID : ObjectID) (x y : Document) : Prop :=
  (x.lookup "_id" ≠ some (.oid objID) → y = x) ∧ ∀ k, k ≠ field → y.lookup k = x.lookup k

/-- A database whose applications collection is the stored application. -/
def applicationDB : Database := Function.update skillDB .application applicationStore

/-- A decoded job body with `salary_min = 50000` and `salary_max = 40000`. -/
def underpaidJob : Model :=
  { ID := NilObjectID
    fields := [("title", .str "Lean developer"), ("salary_min", .int 50000),
      ("salary_max", .int 40000)] }

/-! ## Pagination: properties -/

theorem wrap64_of_inInt64 {x : Int} (h : inInt64 x) : wrap64 x = x := by
  unfold inInt64 MinInt64 MaxInt64 at h
  unfold wrap64
  omega

theorem inInt64_wrap64 (x : Int) : inInt64 (wrap64 x) := by
  unfold inInt64 MinInt64 MaxInt64 wrap64
  omega

/-- C1: for every pair of integers, `NewPagination` returns page 1 for a page below 1
and the page itself otherwise, limit 10 for a limit outside `1..100` and the limit itself
otherwise; so the page is at least 1 and the limit lies in `1..100`. -/
theorem NewPagination_normalizes (page limit : Int) :
    (NewPagination page limit).Page = (if page < 1 then 1 else page) ∧
    (NewPagination page limit).Limit = (if limit < 1 ∨ limit > 100 then 10 else limit) ∧
    1 ≤ (NewPagination page limit).Page ∧
    1 ≤ (NewPagination page limit).Limit ∧ (NewPagination page limit).Limit ≤ 100 := by
  refine ⟨rfl, rfl, ?_, ?_, ?_⟩
  · show 1 ≤ (if page < 1 then 1 else page)
    split <;> omega
  · show 1 ≤ (if limit < 1 ∨ limit > 100 then 10 else limit)
    split <;> omega
  · show (if limit < 1 ∨ limit > 100 then 10 else limit) ≤ 100
    split <;> omega

/-- Where `total + limit - 1` stays within `int64`, `SetTotal` succeeds and its
`TotalPages` is the ceiling of `total / limit`: the least `n` with `n * limit ≥ total`. -/
theorem SetTotal_totalPages_of_no_overflow (p : Pagination) (total : Int)
    (hT : 0 ≤ total) (hL : 1 ≤ p.Limit) (hsum : total + p.Limit - 1 ≤ MaxInt64) :
    ∃ q, p.SetTotal total = some q ∧ q.Total = total ∧ q.Page = p.Page ∧
      q.Limit = p.Limit ∧ total ≤ q.TotalPages * p.Limit ∧
      (q.TotalPages - 1) * p.Limit < total := by
  have hL0 : p.Limit ≠ 0 := by omega
  have hw : wrap64 (wrap64 (total + p.Limit) - 1) = total + p.Limit - 1 := by
    unfold MaxInt64 at hsum
    unfold wrap64
    omega
  have hq : Int.tdiv (total + p.Limit - 1) p.Limit = (total + p.Limit - 1) / p.Limit :=
    Int.tdiv_eq_ediv (by omega) (by omega)
  have hlo : 0 ≤ (total + p.Limit - 1) / p.Limit := Int.ediv_nonneg (by omega) (by omega)
  have hhi : (total + p.Limit - 1) / p.Limit ≤ total + p.Limit - 1 :=
    Int.ediv_le_self _ (by omega)
  have hd : goDiv (total + p.Limit - 1) p.Limit = (total + p.Limit - 1) / p.Limit := by
    unfold goDiv
    rw [hq]
    apply wrap64_of_inInt64
    unfold inInt64 MinInt64
    constructor <;> omega
  refine ⟨{ Page := p.Page, Limit := p.Limit, Total := total,
             TotalPages := goDiv (wrap64 (wrap64 (total + p.Limit) - 1)) p.Limit,
             HasMore := decide (wrap64 (p.Page * p.Limit) < total) },
          by simp [Pagination.SetTotal, hL0], rfl, rfl, rfl, ?_, ?_⟩
  · show total ≤ goDiv (wrap64 (wrap64 (total + p.Limit) - 1)) p.Limit * p.Limit
    rw [hw, hd]
    have := Int.lt_ediv_add_one_mul_self (total + p.Limit - 1) (show 0 < p.Limit by omega)
    linarith
  · show (goDiv (wrap64 (wrap64 (total + p.Limit) - 1)) p.Limit - 1) * p.Limit < total
    rw [hw, hd]
    have := Int.ediv_mul_le (total + p.Limit - 1) hL0
    linarith

/-- C2 (counterexample): on `Pagination{Page: 1, Limit: 2}`, `SetTotal(MaxInt64)` wraps
`total + limit - 1` around to `MinInt64` and stores `TotalPages = -2^62`, which is not
the ceiling of `total / limit`: `TotalPages * Limit` is below the total. -/
theorem SetTotal_totalPages_wraps :
    inInt64 MaxInt64 ∧
    Pagination.SetTotal ⟨1, 2, 0, 0, false⟩ MaxInt64 =
      some ⟨1, 2, MaxInt64, -4611686018427387904, true⟩ ∧
    ¬ (MaxInt64 ≤ (-4611686018427387904 : Int) * 2) := by
  decide

/-- C3 (failing input): on `Pagination{Page: 92233720368547759, Limit: 100}` the
product `Page * Limit` exceeds `MaxInt64` and wraps to a negative number, so
`SetTotal(5)` stores `HasMore = true` although the product is not below 5. -/
theorem SetTotal_hasMore_wraps :
    inInt64 92233720368547759 ∧
    Pagination.SetTotal ⟨92233720368547759, 100, 0, 0, false⟩ 5 =
      some ⟨92233720368547759, 100, 5, 1, true⟩ ∧
    ¬ ((92233720368547759 : Int) * 100 < 5) := by
  decide

/-- C4 (failing input): the request `page=92233720368547759&limit=100` is kept as is by
`NewPagination`, and `SetTotal(0)` then yields `TotalPages = 0` but `HasMore = true`. -/
theorem NewPagination_SetTotal_zero_hasMore :
    (NewPagination 92233720368547759 100).SetTotal 0 =
      some ⟨92233720368547759, 100, 0, 0, true⟩ := by
  decide

/-- C5 (failing input): for the request `page=9223372036854775807&limit=100` the
product `(Page - 1) * Limit` wraps, and `GetSkip` on the normalized pagination is `-200`,
which is neither the product nor a number of documents. -/
theorem NewPagination_GetSkip_wraps :
    inInt64 9223372036854775807 ∧
    (NewPagination 9223372036854775807 100).GetSkip = -200 ∧
    (NewPagination 9223372036854775807 100).GetSkip ≠
      ((NewPagination 9223372036854775807 100).Page - 1) *
        (NewPagination 9223372036854775807 100).Limit := by
  decide

/-! ## Sort resolution: properties -/

theorem sortLoop_eq (sort : String) (l : List String) (d : String) :
    sortLoop sort l d = if sort ∈ l then sort else d := by
  induction l with
  | nil => simp [sortLoop]
  | cons field rest ih =>
    unfold sortLoop
    by_cases h : field = sort
    · simp [h]
    · have h' : ¬ sort = field := fun hh => h hh.symm
      simp [h, h', ih]

theorem empty_not_sortable (e : Entity) : "" ∉ sortableFields e := by
  cases e <;> decide

/-- C6: in every repository's `GetAll` the sort field is the requested string when it is
one of the entity's sortable fields and the entity's default otherwise, the empty string
included; the default is `created_time`, except `applied_time` for applications. -/
theorem resolveSortField_whitelist (e : Entity) (s : String) :
    resolveSortField e s = (if s ∈ sortableFields e then s else defaultSortField e) ∧
    resolveSortField e "" = defaultSortField e ∧
    defaultSortField e = (if e = .application then "applied_time" else "created_time") := by
  refine ⟨?_, by simp [resolveSortField], by cases e <;> rfl⟩
  unfold resolveSortField
  by_cases hs : s = ""
  · subst hs
    simp [empty_not_sortable e]
  · simp [hs, sortLoop_eq]

/-- C7: in every repository's `GetAll` the sort direction is `1` exactly when the order
string is `"asc"` and `-1` for every other string, the empty string included. -/
theorem resolveSortOrder_asc_iff (o : String) :
    (resolveSortOrder o = 1 ↔ o = "asc") ∧
    (resolveSortOrder o = -1 ↔ o ≠ "asc") ∧
    resolveSortOrder "" = -1 := by
  unfold resolveSortOrder
  refine ⟨?_, ?_, by decide⟩ <;> by_cases h : o = "asc" <;> simp [h]

/-! ## Filter building: properties -/

theorem applyRule_eq_applyEffective (f : Filters) (acc : BsonM) (r : FilterRule) :
    applyRule f acc r = applyEffective acc r (effective f r.key) := by
  cases r with
  | substring field =>
    simp only [FilterRule.key, effective, applyRule]
    cases f field with
    | none => rfl
    | some v => by_cases hv : v = "" <;> simp [hv, applyEffective]
  | identifier field =>
    simp only [FilterRule.key, effective, applyRule]
    cases f field with
    | none => rfl
    | some v => by_cases hv : v = "" <;> simp [hv, applyEffective]
  | location =>
    simp only [FilterRule.key, effective, applyRule]
    cases f "location" with
    | none => rfl
    | some v => by_cases hv : v = "" <;> simp [hv, applyEffective]

theorem applyRule_congr (f g : Filters) (acc : BsonM) (r : FilterRule)
    (h : effective f r.key = effective g r.key) : applyRule f acc r = applyRule g acc r := by
  rw [applyRule_eq_applyEffective, applyRule_eq_applyEffective, h]

theorem foldl_applyRule_congr (f g : Filters) (rules : List FilterRule) :
    ∀ acc : BsonM, (∀ r ∈ rules, ∀ a : BsonM, applyRule f a r = applyRule g a r) →
      rules.foldl (applyRule f) acc = rules.foldl (applyRule g) acc := by
  induction rules with
  | nil => intro acc _; rfl
  | cons r rest ih =>
    intro acc h
    simp only [List.foldl_cons]
    rw [h r (List.mem_cons_self _ _) acc]
    exact ih _ (fun r' hr' => h r' (List.mem_cons_of_mem _ hr'))

theorem foldl_applyRule_id (f : Filters) (rules : List FilterRule) :
    ∀ acc : BsonM, (∀ r ∈ rules, effective f r.key = none) →
      rules.foldl (applyRule f) acc = acc := by
  induction rules with
  | nil => intro acc _; rfl
  | cons r rest ih =>
    intro acc h
    simp only [List.foldl_cons]
    rw [applyRule_eq_applyEffective, h r (List.mem_cons_self _ _)]
    cases r <;> exact ih _ (fun r' hr' => h r' (List.mem_cons_of_mem _ hr'))

theorem effective_update_of_ne (f : Filters) (k k' : String) (x : Option String)
    (h : k' ≠ k) : effective (Function.update f k x) k' = effective f k' := by
  simp [effective, Function.update, h]

/-- C8: in every repository's `GetAll`, a key whose value is the empty string builds the
same filter as if the key were absent; when every value is empty (or there is no entry)
the filter is empty and the store selects every document; a key that no step of the
entity reads never changes the filter. -/
theorem buildFilter_ignores_empty_and_unknown (e : Entity) (filters : Filters) :
    (∀ k, filters k = some "" →
      buildFilter e filters = buildFilter e (Function.update filters k none)) ∧
    ((∀ k v, filters k = some v → v = "") →
      buildFilter e filters = [] ∧ ∀ d, selects (buildFilter e filters) d = some true) ∧
    (∀ k v, k ∉ (filterRules e).map FilterRule.key →
      buildFilter e (Function.update filters k (some v)) = buildFilter e filters ∧
      buildFilter e (Function.update filters k none) = buildFilter e filters) := by
  refine ⟨?_, ?_, ?_⟩
  · intro k hk
    unfold buildFilter
    apply foldl_applyRule_congr
    intro r _ a
    apply applyRule_congr
    by_cases hr : r.key = k
    · simp [effective, Function.update, hr, hk]
    · rw [effective_update_of_ne _ _ _ _ hr]
  · intro hall
    have hnil : buildFilter e filters = [] := by
      unfold buildFilter
      apply foldl_applyRule_id
      intro r _
      unfold effective
      cases hv : filters r.key with
      | none => rfl
      | some v => simp [hall _ _ hv]
    refine ⟨hnil, ?_⟩
    intro d
    rw [hnil]
    rfl
  · intro k v hk
    have hne : ∀ r ∈ filterRules e, r.key ≠ k := by
      intro r hr heq
      exact hk (List.mem_map.mpr ⟨r, hr, heq⟩)
    constructor
    · unfold buildFilter
      apply foldl_applyRule_congr
      intro r hr a
      apply applyRule_congr
      rw [effective_update_of_ne _ _ _ _ (hne r hr)]
    · unfold buildFilter
      apply foldl_applyRule_congr
      intro r hr a
      apply applyRule_congr
      rw [effective_update_of_ne _ _ _ _ (hne r hr)]

/-! ## Object ids: which strings parse -/

theorem utf8Size_of_hexVal {c : Char} (h : (hexVal c).isSome = true) : c.utf8Size = 1 := by
  have hle : c ≤ 'f' := by
    unfold hexVal at h
    split at h
    · rename_i h1
      exact le_trans h1.2 (by decide)
    · split at h
      · rename_i h1
        exact h1.2
      · split at h
        · rename_i h1
          exact le_trans h1.2 (by decide)
        · simp at h
  have h1 : c.val.toNat ≤ 102 := hle
  unfold Char.utf8Size
  have h2 : c.val ≤ UInt32.ofNatCore 127 (by decide) := by
    show c.val.toNat ≤ 127
    omega
  simp only [h2, if_true]

theorem utf8ByteSize_go_of_hex (l : List Char) (h : ∀ c ∈ l, (hexVal c).isSome = true) :
    String.utf8ByteSize.go l = l.length := by
  induction l with
  | nil => rfl
  | cons c cs ih =>
    simp only [String.utf8ByteSize.go, List.length_cons]
    rw [ih (fun c' hc' => h c' (List.mem_cons_of_mem _ hc')),
      utf8Size_of_hexVal (h c (List.mem_cons_self _ _))]

theorem hexDecode_some_iff (n : Nat) :
    ∀ l : List Char, l.length ≤ n →
      ((hexDecode l).isSome = true ↔
        (l.length % 2 = 0 ∧ ∀ c ∈ l, (hexVal c).isSome = true)) := by
  induction n with
  | zero =>
    intro l hl
    have : l = [] := List.length_eq_zero.mp (by omega)
    subst this
    simp [hexDecode]
  | succ n ih =>
    intro l hl
    match l with
    | [] => simp [hexDecode]
    | [c] => simp [hexDecode]
    | hi :: lo :: rest =>
      have hrest := ih rest (by simp at hl; omega)
      simp only [hexDecode]
      cases hh : hexVal hi <;> cases hlo : hexVal lo <;> cases hr : hexDecode rest <;>
        simp [hh, hlo, hr] at hrest ⊢
      · intro h2
        exact hrest (by omega)
      · exact ⟨by omega, hrest.2⟩

/-- The driver rejects exactly the strings that are not 24 hexadecimal digits. -/
theorem ObjectIDFromHex_eq_none_iff (s : String) :
    ObjectIDFromHex s = none ↔ ¬ isObjectIDHex s := by
  have hdec := hexDecode_some_iff s.data.length s.data (le_refl _)
  unfold ObjectIDFromHex isObjectIDHex
  constructor
  · intro h ⟨hlen, hall⟩
    have hsize : s.utf8ByteSize = 24 := by
      show String.utf8ByteSize.go s.data = 24
      rw [utf8ByteSize_go_of_hex _ hall]
      exact hlen
    have hsome : (hexDecode s.data).isSome = true :=
      hdec.mpr ⟨by rw [show s.data.length = 24 from hlen], hall⟩
    rw [if_neg (by simp [hsize])] at h
    cases hd : hexDecode s.data with
    | none => simp [hd] at hsome
    | some bs => simp [hd] at h
  · intro h
    by_cases hsize : s.utf8ByteSize = 24
    · rw [if_neg (by simp [hsize])]
      cases hd : hexDecode s.data with
      | none => rfl
      | some bs =>
        exfalso
        apply h
        have hall := (hdec.mp (by simp [hd])).2
        refine ⟨?_, hall⟩
        have : String.utf8ByteSize.go s.data = 24 := hsize
        rw [utf8ByteSize_go_of_hex _ hall] at this
        exact this
    · rw [if_pos hsize]

/-! ## Filter building: empty values, unknown keys, unparseable identifiers -/

/-- Witness for C8 on a company request with an empty `name`, on a request whose values
are all empty, and on the key `bogus`, which no step of the company repository reads. -/
theorem buildFilter_ignores_empty_and_unknown_witness :
    (companyQuery "name" = some "" ∧
      buildFilter .company companyQuery =
        buildFilter .company (Function.update companyQuery "name" none)) ∧
    (buildFilter .job blankQuery = [] ∧
      ∀ d, selects (buildFilter .job blankQuery) d = some true) ∧
    ("bogus" ∉ (filterRules .company).map FilterRule.key ∧
      buildFilter .company (Function.update companyQuery "bogus" (some "x")) =
        buildFilter .company companyQuery ∧
      buildFilter .company (Function.update companyQuery "bogus" none) =
        buildFilter .company companyQuery) :=
  ⟨⟨rfl, (buildFilter_ignores_empty_and_unknown .company companyQuery).1 "name" rfl⟩,
   (buildFilter_ignores_empty_and_unknown .job blankQuery).2.1
     (fun _ _ h => (Option.some.inj h).symm),
   ⟨by decide,
    (buildFilter_ignores_empty_and_unknown .company companyQuery).2.2 "bogus" "x"
      (by decide)⟩⟩

theorem identifier_rule_of_key (e : Entity) (field : String)
    (hid : (e, field) ∈ identifierFilters) :
    .identifier field ∈ filterRules e ∧
      ∀ r ∈ filterRules e, r.key = field → r = .identifier field := by
  simp only [identifierFilters, List.mem_cons, Prod.mk.injEq, List.mem_nil_iff,
    or_false] at hid
  rcases hid with ⟨rfl, rfl⟩ | ⟨rfl, rfl⟩ | ⟨rfl, rfl⟩ | ⟨rfl, rfl⟩ | ⟨rfl, rfl⟩ |
    ⟨rfl, rfl⟩ | ⟨rfl, rfl⟩ <;> decide

/-- The identifier steps of the repositories are exactly the listed identifier filters. -/
theorem identifier_rule_iff (e : Entity) (field : String) :
    .identifier field ∈ filterRules e ↔ (e, field) ∈ identifierFilters := by
  constructor
  · intro h
    cases e <;> simp [filterRules] at h <;> (try rcases h with rfl | rfl) <;> decide
  · exact fun h => (identifier_rule_of_key e field h).1

/-- C9: for every identifier-type filter (`job_id`, `candidate_id` on applications,
`candidate_id`, `skill_id` on candidate skills, `job_id`, `skill_id` on job skills,
`company_id` on recruiters) and every non-empty value that is not 24 hexadecimal digits,
the filter built is the one built with the key absent, and `GetAll` as a whole returns
what it returns with the key absent: the value causes no error. -/
theorem buildFilter_drops_invalid_identifier (e : Entity) (field : String)
    (filters : Filters) (v : String)
    (hid : (e, field) ∈ identifierFilters) (hv : v ≠ "") (hbad : ¬ isObjectIDHex v) :
    buildFilter e (Function.update filters field (some v)) =
      buildFilter e (Function.update filters field none) ∧
    ∀ (c : Collection) (page limit : Int) (sort order : String),
      GetAll e c page limit (Function.update filters field (some v)) sort order =
        GetAll e c page limit (Function.update filters field none) sort order := by
  have hnone : ObjectIDFromHex v = none := (ObjectIDFromHex_eq_none_iff v).mpr hbad
  have hbuild : buildFilter e (Function.update filters field (some v)) =
      buildFilter e (Function.update filters field none) := by
    unfold buildFilter
    apply foldl_applyRule_congr
    intro r hr a
    by_cases hk : r.key = field
    · rw [(identifier_rule_of_key e field hid).2 r hr hk]
      simp [applyRule, Function.update, hv, hnone]
    · apply applyRule_congr
      rw [effective_update_of_ne _ _ _ _ hk, effective_update_of_ne _ _ _ _ hk]
  refine ⟨hbuild, ?_⟩
  intro c page limit sort order
  unfold GetAll
  rw [hbuild]

/-- Witness for C9 on the application repository: the value `not-an-id` for `job_id`,
next to a status filter. -/
theorem buildFilter_drops_invalid_identifier_witness :
    ((Entity.application, "job_id") ∈ identifierFilters ∧ "not-an-id" ≠ "" ∧
      ¬ isObjectIDHex "not-an-id") ∧
    buildFilter .application (Function.update statusQuery "job_id" (some "not-an-id")) =
      buildFilter .application (Function.update statusQuery "job_id" none) ∧
    ∀ (c : Collection) (page limit : Int) (sort order : String),
      GetAll .application c page limit
          (Function.update statusQuery "job_id" (some "not-an-id")) sort order =
        GetAll .application c page limit
          (Function.update statusQuery "job_id" none) sort order :=
  ⟨⟨by decide, by decide, fun h => absurd h.1 (by decide)⟩,
   buildFilter_drops_invalid_identifier .application "job_id" statusQuery "not-an-id"
     (by decide) (by decide) (fun h => absurd h.1 (by decide))⟩

/-! ## Substring filters and the store's regex matching -/

theorem matchHere_iff_prefix (fold : Char → Char) :
    ∀ (p t : List Char), '.' ∉ p →
      (matchHere fold p t = true ↔ p.map fold <+: t.map fold) := by
  intro p
  induction p with
  | nil => intro t _; simp [matchHere]
  | cons a ps ih =>
    intro t hdot
    have ha : a ≠ '.' := fun h => hdot (h ▸ List.mem_cons_self _ _)
    have hps : '.' ∉ ps := fun h => hdot (List.mem_cons_of_mem _ h)
    cases t with
    | nil => simp [matchHere]
    | cons b ts =>
      simp only [matchHere, if_neg ha, List.map_cons, List.cons_prefix_cons,
        Bool.and_eq_true, decide_eq_true_eq, ih ts hps]

theorem matchAnywhere_iff_infix (fold : Char → Char) (p : List Char) (hdot : '.' ∉ p) :
    ∀ t : List Char, (matchAnywhere fold p t = true ↔ p.map fold <:+: t.map fold) := by
  intro t
  induction t with
  | nil =>
    simp only [matchAnywhere, matchHere_iff_prefix fold p [] hdot, List.map_nil,
      List.prefix_nil, List.infix_nil]
  | cons b ts ih =>
    simp only [matchAnywhere, Bool.or_eq_true, matchHere_iff_prefix fold p (b :: ts) hdot,
      ih, List.map_cons, List.infix_cons_iff]

theorem foldCase_i : foldCase "i" = Char.toLower := by
  funext c
  simp [foldCase]

theorem buildFilter_singleFilter (e : Entity) (field v : String)
    (hrule : .substring field ∈ filterRules e) (hv : v ≠ "") :
    buildFilter e (singleFilter field v) = [(field, .is (.regex v "i"))] := by
  cases e <;> simp [filterRules] at hrule <;>
    (try rcases hrule with rfl | rfl | rfl | rfl | rfl) <;>
    simp +decide [buildFilter, filterRules, applyRule, singleFilter, Function.update, hv,
      BsonM.set]

/-- Where the value has no regex metacharacter, the filter built for a substring field
selects exactly the documents whose field is a string containing the value, compared
case-insensitively. -/
theorem substring_filter_literal (e : Entity) (field v s : String) (d : Document)
    (hrule : .substring field ∈ filterRules e) (hv : v ≠ "") (hlit : isLiteralPattern v)
    (hd : d.lookup field = some (.str s)) :
    selects (buildFilter e (singleFilter field v)) d =
      some (decide (containsIgnoreCase s v)) := by
  have hdot : '.' ∉ v.data := by
    intro h
    have := hlit _ h
    revert this
    decide
  have hall : v.data.all (fun c => c = '.' || !regexMeta.contains c) = true := by
    rw [List.all_eq_true]
    intro c hc
    have hm := hlit c hc
    simp only [Bool.or_eq_true, decide_eq_true_eq, Bool.not_eq_true', hm, or_true]
  rw [buildFilter_singleFilter e field v hrule hv]
  simp only [selects, FilterValue.holds, Match.holds, hd, regexMatch, hall, if_true,
    foldCase_i, Bool.and_true]
  congr 1
  rw [Bool.eq_iff_iff]
  simp only [decide_eq_true_eq, containsIgnoreCase]
  exact matchAnywhere_iff_infix _ _ hdot _

/-- C10 (failing input): for the skills request `name=.` the filter built is the regex
`.` with option `i`, which the store matches against any character: it selects the skill
named `Go`, whose name does not contain the value `.`. -/
theorem substring_filter_wildcard :
    buildFilter .skill (singleFilter "name" ".") = [("name", .is (.regex "." "i"))] ∧
    selects (buildFilter .skill (singleFilter "name" ".")) [("name", .str "Go")] =
      some true ∧
    ¬ containsIgnoreCase "Go" "." := by
  decide

/-! ## The company location filter -/

theorem buildFilter_company (filters : Filters) (v : String)
    (hl : effective filters "location" = some v) :
    buildFilter .company filters =
      regexEntry filters "name" ++ [("$or", .anyOf (locationAlts v))] ++
        regexEntry filters "country" ++ regexEntry filters "city" ++
        regexEntry filters "postal_code" := by
  simp only [buildFilter, filterRules, List.foldl, applyRule_eq_applyEffective,
    FilterRule.key, hl, regexEntry]
  cases effective filters "name" <;> cases effective filters "country" <;>
    cases effective filters "city" <;> cases effective filters "postal_code" <;>
    simp +decide [applyEffective, BsonM.set, locationAlts]

theorem selects_eq_true_iff (d : Document) :
    ∀ f : BsonM, selects f d = some true ↔ ∀ kv ∈ f, kv.2.holds kv.1 d = some true := by
  intro f
  induction f with
  | nil => simp [selects]
  | cons kv rest ih =>
    obtain ⟨k, v⟩ := kv
    simp only [selects, List.mem_cons, forall_eq_or_imp]
    rw [← ih]
    cases hv : v.holds k d <;> cases hr : selects rest d <;> simp

theorem holds_regex_defined (p o : String) (x y : Option BsonValue) (b : Bool)
    (h : (Match.regex p o).holds x = some b) : ∃ b', (Match.regex p o).holds y = some b' := by
  have hdef : ∀ s, ∃ r, regexMatch p o s = some r := by
    intro s
    unfold regexMatch
    by_cases hp : p.data.all (fun c => c = '.' || !regexMeta.contains c) = true
    · rw [if_pos hp]
      exact ⟨_, rfl⟩
    · exfalso
      rcases x with _ | x
      · simp only [Match.holds, regexMatch, if_neg hp] at h
        cases h
      · cases x <;> simp only [Match.holds, regexMatch, if_neg hp] at h <;> cases h
  rcases y with _ | y
  · obtain ⟨r, hr⟩ := hdef ""
    exact ⟨false, by simp [Match.holds, hr]⟩
  · cases y with
    | str s => exact hdef s
    | oid id =>
      obtain ⟨r, hr⟩ := hdef ""
      exact ⟨false, by simp [Match.holds, hr]⟩
    | int n =>
      obtain ⟨r, hr⟩ := hdef ""
      exact ⟨false, by simp [Match.holds, hr]⟩
    | null =>
      obtain ⟨r, hr⟩ := hdef ""
      exact ⟨false, by simp [Match.holds, hr]⟩
    | other =>
      obtain ⟨r, hr⟩ := hdef ""
      exact ⟨false, by simp [Match.holds, hr]⟩

theorem anyHolds_locationAlts (d : Document) (v : String) :
    anyHolds d (locationAlts v) = some true ↔
      ∃ f ∈ ["country", "city", "postal_code"],
        (Match.regex v "i").holds (d.lookup f) = some true := by
  simp only [locationAlts, anyHolds, List.mem_cons, List.mem_singleton, List.mem_nil_iff,
    or_false, exists_eq_or_imp, exists_eq_left]
  constructor
  · intro h
    rcases h1 : (Match.regex v "i").holds (d.lookup "country") with _ | b1 <;>
      rcases h2 : (Match.regex v "i").holds (d.lookup "city") with _ | b2 <;>
      rcases h3 : (Match.regex v "i").holds (d.lookup "postal_code") with _ | b3 <;>
      simp only [h1, h2, h3] at h <;>
      first
        | (cases b1 <;> cases b2 <;> cases b3 <;> simp at h ⊢)
        | simp at h
  · intro h
    have key : ∀ x b, (Match.regex v "i").holds x = some b →
        ∃ b1 b2 b3, (Match.regex v "i").holds (d.lookup "country") = some b1 ∧
          (Match.regex v "i").holds (d.lookup "city") = some b2 ∧
          (Match.regex v "i").holds (d.lookup "postal_code") = some b3 := by
      intro x b hx
      obtain ⟨b1, h1⟩ := holds_regex_defined v "i" x (d.lookup "country") b hx
      obtain ⟨b2, h2⟩ := holds_regex_defined v "i" x (d.lookup "city") b hx
      obtain ⟨b3, h3⟩ := holds_regex_defined v "i" x (d.lookup "postal_code") b hx
      exact ⟨b1, b2, b3, h1, h2, h3⟩
    rcases h with h | h | h
    · obtain ⟨b1, b2, b3, h1, h2, h3⟩ := key _ _ h
      rw [h1] at h
      simp [h1, h2, h3, Option.some.inj h]
    · obtain ⟨b1, b2, b3, h1, h2, h3⟩ := key _ _ h
      rw [h2] at h
      simp [h1, h2, h3, Option.some.inj h]
    · obtain ⟨b1, b2, b3, h1, h2, h3⟩ := key _ _ h
      rw [h3] at h
      simp [h1, h2, h3, Option.some.inj h]

/-- C11: for every non-empty location value, the filter built by the company `GetAll`
holds, under `"$or"`, the disjunction of the regex on `country`, `city` and
`postal_code`; that disjunction holds for a company exactly when the value matches one
of the three fields, and the filter selects a company exactly when the disjunction holds
and every supplied `name`, `country`, `city` and `postal_code` filter holds as well. -/
theorem company_location_disjunction (filters : Filters) (v : String)
    (hloc : filters "location" = some v) (hv : v ≠ "") :
    ("$or", FilterValue.anyOf (locationAlts v)) ∈ buildFilter .company filters ∧
    (∀ d : Document,
      (FilterValue.anyOf (locationAlts v)).holds "$or" d = some true ↔
        ∃ f ∈ ["country", "city", "postal_code"],
          (Match.regex v "i").holds (d.lookup f) = some true) ∧
    (∀ d : Document,
      selects (buildFilter .company filters) d = some true ↔
        (∃ f ∈ ["country", "city", "postal_code"],
          (Match.regex v "i").holds (d.lookup f) = some true) ∧
        ∀ k ∈ ["name", "country", "city", "postal_code"], ∀ x,
          effective filters k = some x →
            (Match.regex x "i").holds (d.lookup k) = some true) := by
  have heff : effective filters "location" = some v := by
    simp [effective, hloc, hv]
  rw [buildFilter_company filters v heff]
  refine ⟨by simp, fun d => anyHolds_locationAlts d v, ?_⟩
  intro d
  rw [selects_eq_true_iff, ← anyHolds_locationAlts]
  rcases h1 : effective filters "name" with _ | x1 <;>
    rcases h2 : effective filters "country" with _ | x2 <;>
    rcases h3 : effective filters "city" with _ | x3 <;>
    rcases h4 : effective filters "postal_code" with _ | x4 <;>
    simp [regexEntry, h1, h2, h3, h4, FilterValue.holds] <;> tauto

/-- Witness for C11 on a company request with the location `paris` and the name
`acme`. -/
theorem company_location_disjunction_witness :
    (locationQuery "location" = some "paris" ∧ "paris" ≠ "") ∧
    ("$or", FilterValue.anyOf (locationAlts "paris")) ∈ buildFilter .company locationQuery ∧
    (∀ d : Document,
      (FilterValue.anyOf (locationAlts "paris")).holds "$or" d = some true ↔
        ∃ f ∈ ["country", "city", "postal_code"],
          (Match.regex "paris" "i").holds (d.lookup f) = some true) ∧
    (∀ d : Document,
      selects (buildFilter .company locationQuery) d = some true ↔
        (∃ f ∈ ["country", "city", "postal_code"],
          (Match.regex "paris" "i").holds (d.lookup f) = some true) ∧
        ∀ k ∈ ["name", "country", "city", "postal_code"], ∀ x,
          effective locationQuery k = some x →
            (Match.regex x "i").holds (d.lookup k) = some true) :=
  ⟨⟨rfl, by decide⟩, company_location_disjunction locationQuery "paris" rfl (by decide)⟩

/-! ## The store: selection by an object id -/

theorem selects_idFilter (k : String) (o : ObjectID) (d : Document) :
    selects (idFilter k o) d = some (decide (d.lookup k = some (.oid o))) := by
  simp [idFilter, selects, FilterValue.holds, Match.holds]

theorem isSelected_idFilter (k : String) (o : ObjectID) (d : Document) :
    isSelected (idFilter k o) d = decide (d.lookup k = some (.oid o)) := by
  simp [isSelected, selects_idFilter]

theorem CountDocuments_idFilter (c : Coll) (k : String) (o : ObjectID) :
    CountDocuments c (idFilter k o) = .ok (c.countP (isSelected (idFilter k o))) := by
  unfold CountDocuments
  rw [if_pos]
  rw [List.all_eq_true]
  intro d _
  simp [selects_idFilter]

/-! ## `GetAll`: the total -/

/-- C12: on every store content and for every filters map, page, limit, sort and order,
`GetAll` returns a page and a total exactly when the count and the page fetch, both run
on the built filter, return them; the total is then the number of stored documents the
built filter selects, and it is the same for every other page, limit, sort and order. -/
theorem GetAll_total_counts_selected (e : Entity) (store : Coll)
    (find : Coll → BsonM → FindOptions → Except String (List Document))
    (page limit : Int) (filters : Filters) (sort order : String)
    (docs : List Document) (total : Int) :
    (GetAll e (memCollection store find) page limit filters sort order = .ok (docs, total) ↔
      CountDocuments store (buildFilter e filters) = .ok total ∧
      find store (buildFilter e filters)
        { skip := (NewPagination page limit).GetSkip
          limit := (NewPagination page limit).Limit
          sort := (resolveSortField e sort, resolveSortOrder order) } = .ok docs) ∧
    (GetAll e (memCollection store find) page limit filters sort order = .ok (docs, total) →
      total = ((store.filter (isSelected (buildFilter e filters))).length : Int) ∧
      ∀ (page' limit' : Int) (sort' order' : String) (docs' : List Document) (total' : Int),
        GetAll e (memCollection store find) page' limit' filters sort' order' =
            .ok (docs', total') →
          total' = total) := by
  have hiff : ∀ (pg lm : Int) (so od : String) (ds : List Document) (t : Int),
      GetAll e (memCollection store find) pg lm filters so od = .ok (ds, t) ↔
        CountDocuments store (buildFilter e filters) = .ok t ∧
        find store (buildFilter e filters)
          { skip := (NewPagination pg lm).GetSkip
            limit := (NewPagination pg lm).Limit
            sort := (resolveSortField e so, resolveSortOrder od) } = .ok ds := by
    intro pg lm so od ds t
    simp only [GetAll, memCollection]
    cases hc : CountDocuments store (buildFilter e filters) with
    | error err => simp
    | ok n =>
      simp only
      cases hf : find store (buildFilter e filters)
          { skip := (NewPagination pg lm).GetSkip
            limit := (NewPagination pg lm).Limit
            sort := (resolveSortField e so, resolveSortOrder od) } with
      | error err => simp
      | ok ds' =>
        simp only [Except.ok.injEq, Prod.mk.injEq]
        tauto
  refine ⟨hiff _ _ _ _ _ _, ?_⟩
  intro h
  have hc := ((hiff _ _ _ _ _ _).mp h).1
  constructor
  · unfold CountDocuments at hc
    split at hc
    · simp only [Except.ok.injEq] at hc
      rw [← hc, List.countP_eq_length_filter]
    · cases hc
  · intro page' limit' sort' order' docs' total' h'
    have hc' := ((hiff _ _ _ _ _ _).mp h').1
    rw [hc] at hc'
    exact (Except.ok.inj hc').symm

/-- Witness for C12 on the two stored skills and the filter `name=go`: the total is 1. -/
theorem GetAll_total_counts_selected_witness :
    GetAll .skill (memCollection skillStore plainFind) 3 50 (singleFilter "name" "go")
        "name" "asc" = .ok ([[("_id", .oid ⟨[1, 1, 1, 1, 1, 1, 1, 1, 1, 1, 1, 1]⟩),
          ("name", .str "Go")]], 1) ∧
    (1 : Int) =
        ((skillStore.filter
          (isSelected (buildFilter .skill (singleFilter "name" "go")))).length : Int) ∧
    ∀ (page' limit' : Int) (sort' order' : String) (docs' : List Document) (total' : Int),
      GetAll .skill (memCollection skillStore plainFind) page' limit'
          (singleFilter "name" "go") sort' order' = .ok (docs', total') →
        total' = 1 :=
  ⟨by rfl,
   (GetAll_total_counts_selected .skill skillStore plainFind 3 50 (singleFilter "name" "go")
     "name" "asc" [[("_id", .oid ⟨[1, 1, 1, 1, 1, 1, 1, 1, 1, 1, 1, 1]⟩), ("name", .str "Go")]]
     1).2 (by rfl)⟩

/-! ## `GetByID`, `Create` and the field updates -/

theorem eq_of_lookup_id_eq {c : Coll} (hU : UniqueIDs c) {d d' : Document}
    (hd : d ∈ c) (hd' : d' ∈ c) (h : d.lookup "_id" = d'.lookup "_id") : d = d' :=
  List.inj_on_of_nodup_map hU.1 hd hd' h

theorem find_idFilter_eq_none (c : Coll) (o : ObjectID) :
    c.find? (isSelected (idFilter "_id" o)) = none ↔
      ∀ d ∈ c, d.lookup "_id" ≠ some (.oid o) := by
  rw [List.find?_eq_none]
  simp [isSelected_idFilter]

theorem find_idFilter_some (c : Coll) (o : ObjectID)
    (h : ∃ d ∈ c, d.lookup "_id" = some (.oid o)) :
    ∃ d ∈ c, d.lookup "_id" = some (.oid o) ∧
      c.find? (isSelected (idFilter "_id" o)) = some d := by
  cases hf : c.find? (isSelected (idFilter "_id" o)) with
  | none =>
    obtain ⟨d, hd, hid⟩ := h
    exact absurd hid ((find_idFilter_eq_none c o).mp hf d hd)
  | some d' =>
    have hp := List.find?_some hf
    rw [isSelected_idFilter] at hp
    exact ⟨d', List.mem_of_find?_eq_some hf, by simpa using hp, rfl⟩

theorem decode_ID (d : Document) (o : ObjectID) (h : d.lookup "_id" = some (.oid o)) :
    (Model.decode d).ID = o := by
  simp [Model.decode, h]

/-- C13: for every repository and every id string, `GetByID` returns an error and no
entity when the id is not 24 hexadecimal digits or when no stored document has the
parsed id; otherwise it returns a stored document with that id, decoded, which under
the unique index on `_id` is the stored document with that id. -/
theorem GetByID_by_id (e : Entity) (db : Database) (id : String) :
    (¬ isObjectIDHex id → Repository.GetByID e db id = .error ErrInvalidHex) ∧
    (∀ objID, ObjectIDFromHex id = some objID →
      ((∀ d ∈ db e, d.lookup "_id" ≠ some (.oid objID)) →
        Repository.GetByID e db id = .error ErrNoDocuments) ∧
      ((∃ d ∈ db e, d.lookup "_id" = some (.oid objID)) →
        ∃ d ∈ db e, d.lookup "_id" = some (.oid objID) ∧
          Repository.GetByID e db id = .ok (Model.decode d) ∧
          (Model.decode d).ID = objID) ∧
      (UniqueIDs (db e) → ∀ d ∈ db e, d.lookup "_id" = some (.oid objID) →
        Repository.GetByID e db id = .ok (Model.decode d))) := by
  refine ⟨?_, ?_⟩
  · intro hbad
    simp [Repository.GetByID, GetByID, (ObjectIDFromHex_eq_none_iff id).mpr hbad]
  · intro objID hparse
    have hex : (∃ d ∈ db e, d.lookup "_id" = some (.oid objID)) →
        ∃ d ∈ db e, d.lookup "_id" = some (.oid objID) ∧
          Repository.GetByID e db id = .ok (Model.decode d) ∧
          (Model.decode d).ID = objID := by
      intro h
      obtain ⟨d, hd, hid, hf⟩ := find_idFilter_some (db e) objID h
      exact ⟨d, hd, hid, by simp [Repository.GetByID, GetByID, hparse, FindOne, hf],
        decode_ID d objID hid⟩
    refine ⟨?_, hex, ?_⟩
    · intro hnone
      simp [Repository.GetByID, GetByID, hparse, FindOne,
        (find_idFilter_eq_none (db e) objID).mpr hnone]
    · intro hU d hd hid
      obtain ⟨d', hd', hid', hget, _⟩ := hex ⟨d, hd, hid⟩
      rw [eq_of_lookup_id_eq hU hd hd' (hid.trans hid'.symm)]
      exact hget

/-- Witness for C13 on the skills collection: a malformed id, a well-formed id that no
skill carries, and the id of the stored skill `Go`. -/
theorem GetByID_by_id_witness :
    (¬ isObjectIDHex "xyz" ∧ Repository.GetByID .skill skillDB "xyz" = .error ErrInvalidHex) ∧
    (ObjectIDFromHex "030303030303030303030303" =
        some ⟨[3, 3, 3, 3, 3, 3, 3, 3, 3, 3, 3, 3]⟩ ∧
      Repository.GetByID .skill skillDB "030303030303030303030303" =
        .error ErrNoDocuments) ∧
    (ObjectIDFromHex "010101010101010101010101" =
        some ⟨[1, 1, 1, 1, 1, 1, 1, 1, 1, 1, 1, 1]⟩ ∧ UniqueIDs (skillDB .skill) ∧
      Repository.GetByID .skill skillDB "010101010101010101010101" =
        .ok (Model.decode [("_id", .oid ⟨[1, 1, 1, 1, 1, 1, 1, 1, 1, 1, 1, 1]⟩),
          ("name", .str "Go")])) :=
  ⟨⟨fun h => absurd h.1 (by decide),
    (GetByID_by_id .skill skillDB "xyz").1 (fun h => absurd h.1 (by decide))⟩,
   ⟨by decide,
    ((GetByID_by_id .skill skillDB "030303030303030303030303").2
      ⟨[3, 3, 3, 3, 3, 3, 3, 3, 3, 3, 3, 3]⟩ (by decide)).1 (by decide)⟩,
   ⟨by decide, by decide,
    ((GetByID_by_id .skill skillDB "010101010101010101010101").2
      ⟨[1, 1, 1, 1, 1, 1, 1, 1, 1, 1, 1, 1]⟩ (by decide)).2.2
      (by decide) _ (by decide) (by decide)⟩⟩

theorem marshal_lookup_id (m : Model) (hwf : m.WF) :
    m.marshal.lookup "_id" = if m.ID = NilObjectID then none else some (.oid m.ID) := by
  unfold Model.marshal
  by_cases h : m.ID = NilObjectID
  · simp only [h, if_true]
    exact hwf
  · simp [h, List.lookup]

theorem InsertOne_marshal (c : Coll) (m : Model) (newID : ObjectID) (hwf : m.WF) :
    InsertOne c m.marshal newID =
      if c.any (fun d => d.lookup "_id" ==
          some (.oid (if m.ID = NilObjectID then newID else m.ID))) then
        .error ErrDuplicateKey
      else
        .ok (.oid (if m.ID = NilObjectID then newID else m.ID),
          c ++ [("_id", .oid (if m.ID = NilObjectID then newID else m.ID)) :: m.fields]) := by
  unfold InsertOne
  rw [marshal_lookup_id m hwf]
  by_cases hnil : m.ID = NilObjectID
  · simp only [hnil, if_true, Model.marshal]
  · simp only [hnil, if_false, Model.marshal]

theorem Create_eq (c : Coll) (m : Model) (newID : ObjectID) (hwf : m.WF) :
    Create c m newID =
      if c.any (fun d => d.lookup "_id" ==
          some (.oid (if m.ID = NilObjectID then newID else m.ID))) then
        (c, m, some ErrDuplicateKey)
      else
        (c ++ [("_id", .oid (if m.ID = NilObjectID then newID else m.ID)) :: m.fields],
          { ID := if m.ID = NilObjectID then newID else m.ID, fields := m.fields }, none) := by
  unfold Create
  rw [InsertOne_marshal c m newID hwf]
  by_cases hdup : c.any (fun d => d.lookup "_id" ==
      some (.oid (if m.ID = NilObjectID then newID else m.ID))) = true
  · rw [if_pos hdup, if_pos hdup]
  · rw [if_neg hdup, if_neg hdup]

/-- C14: for every repository and every struct, when `Create` returns no error the
inserted document is the last of the collection, its `_id` is the `ID` of the struct
after the call, and the other fields of the struct are unchanged; `Create` returns no
error exactly when the store insert succeeds, and when the insert fails `Create` returns
that error and leaves the struct and the database unchanged. -/
theorem Create_sets_ID (e : Entity) (db : Database) (m : Model) (newID : ObjectID)
    (hwf : m.WF) :
    (∀ err, InsertOne (db e) m.marshal newID = .error err →
      Repository.Create e db m newID = (db, m, some err)) ∧
    ((Repository.Create e db m newID).2.2 = none →
      (∃ r, InsertOne (db e) m.marshal newID = .ok r) ∧
      (∃ doc, (Repository.Create e db m newID).1 e = db e ++ [doc] ∧
        doc.lookup "_id" = some (.oid (Repository.Create e db m newID).2.1.ID)) ∧
      (Repository.Create e db m newID).2.1.fields = m.fields ∧
      ∀ e', e' ≠ e → (Repository.Create e db m newID).1 e' = db e') := by
  refine ⟨?_, ?_⟩
  · intro err herr
    simp [Repository.Create, Create, herr]
  · unfold Repository.Create
    rw [Create_eq (db e) m newID hwf, InsertOne_marshal (db e) m newID hwf]
    by_cases hdup : (db e).any (fun d => d.lookup "_id" ==
        some (.oid (if m.ID = NilObjectID then newID else m.ID))) = true
    · rw [if_pos hdup]
      intro h
      cases h
    · rw [if_neg hdup, if_neg hdup]
      intro _
      refine ⟨⟨_, rfl⟩,
        ⟨("_id", .oid (if m.ID = NilObjectID then newID else m.ID)) :: m.fields,
          by simp, by simp [List.lookup]⟩, rfl, ?_⟩
      intro e' he'
      simp [Function.update, he']

/-- Witness for C14 on the skills collection: a new skill gets the generated id, and a
skill that carries the id of a stored one is refused with the store's error. -/
theorem Create_sets_ID_witness :
    (newSkill.WF ∧
      (Repository.Create .skill skillDB newSkill ⟨[7, 7, 7, 7, 7, 7, 7, 7, 7, 7, 7, 7]⟩).2.2 =
        none ∧
      (Repository.Create .skill skillDB newSkill ⟨[7, 7, 7, 7, 7, 7, 7, 7, 7, 7, 7, 7]⟩).2.1 =
        { ID := ⟨[7, 7, 7, 7, 7, 7, 7, 7, 7, 7, 7, 7]⟩, fields := [("name", .str "Lean")] } ∧
      (Repository.Create .skill skillDB newSkill
          ⟨[7, 7, 7, 7, 7, 7, 7, 7, 7, 7, 7, 7]⟩).2.1.fields = newSkill.fields) ∧
    (InsertOne (skillDB .skill)
        (Model.marshal { ID := ⟨[1, 1, 1, 1, 1, 1, 1, 1, 1, 1, 1, 1]⟩, fields := [] })
        ⟨[7, 7, 7, 7, 7, 7, 7, 7, 7, 7, 7, 7]⟩ = .error ErrDuplicateKey ∧
      Repository.Create .skill skillDB
          { ID := ⟨[1, 1, 1, 1, 1, 1, 1, 1, 1, 1, 1, 1]⟩, fields := [] }
          ⟨[7, 7, 7, 7, 7, 7, 7, 7, 7, 7, 7, 7]⟩ =
        (skillDB, { ID := ⟨[1, 1, 1, 1, 1, 1, 1, 1, 1, 1, 1, 1]⟩, fields := [] },
          some ErrDuplicateKey)) :=
  ⟨⟨by decide, by decide, by decide,
    ((Create_sets_ID .skill skillDB newSkill ⟨[7, 7, 7, 7, 7, 7, 7, 7, 7, 7, 7, 7]⟩
      (by decide)).2 (by decide)).2.2.1⟩,
   ⟨by rfl,
    (Create_sets_ID .skill skillDB { ID := ⟨[1, 1, 1, 1, 1, 1, 1, 1, 1, 1, 1, 1]⟩, fields := [] }
      ⟨[7, 7, 7, 7, 7, 7, 7, 7, 7, 7, 7, 7]⟩ (by decide)).1 ErrDuplicateKey (by rfl)⟩⟩

/-- C15: for every id string, valid or not, stored or not, `UpdateStatus` and the two
`UpdateProficiencyLevel` methods called with the empty string as the new value return
`mongo.ErrNoDocuments` and leave the collection as it is: the store is not written. -/
theorem update_with_empty_value (c : Coll) (id : String) :
    ApplicationRepository.UpdateStatus c id "" = (c, some ErrNoDocuments) ∧
    CandidateSkillRepository.UpdateProficiencyLevel c id "" = (c, some ErrNoDocuments) ∧
    JobSkillRepository.UpdateProficiencyLevel c id "" = (c, some ErrNoDocuments) := by
  simp [ApplicationRepository.UpdateStatus, CandidateSkillRepository.UpdateProficiencyLevel,
    JobSkillRepository.UpdateProficiencyLevel, updateField]

/-- C16 (failing input): on a collection that stores one document, the three update
methods called with the well-formed id `030303030303030303030303`, which no stored
document carries, and a non-empty value return no error and change nothing. -/
theorem update_of_missing_id_succeeds :
    ObjectIDFromHex "030303030303030303030303" =
      some ⟨[3, 3, 3, 3, 3, 3, 3, 3, 3, 3, 3, 3]⟩ ∧
    (∀ d ∈ applicationStore,
      d.lookup "_id" ≠ some (.oid ⟨[3, 3, 3, 3, 3, 3, 3, 3, 3, 3, 3, 3]⟩)) ∧
    ApplicationRepository.UpdateStatus applicationStore "030303030303030303030303"
      "accepted" = (applicationStore, none) ∧
    CandidateSkillRepository.UpdateProficiencyLevel applicationStore
      "030303030303030303030303" "expert" = (applicationStore, none) ∧
    JobSkillRepository.UpdateProficiencyLevel applicationStore
      "030303030303030303030303" "expert" = (applicationStore, none) := by
  decide

/-! ## `Delete` -/

theorem any_idFilter (c : Coll) (k : String) (o : ObjectID) :
    c.any (isSelected (idFilter k o)) = true ↔ ∃ d ∈ c, d.lookup k = some (.oid o) := by
  simp [List.any_eq_true, isSelected_idFilter]

theorem Delete_eq (c : Coll) (id : String) (o : ObjectID)
    (hparse : ObjectIDFromHex id = some o) :
    Delete c id =
      if c.any (isSelected (idFilter "_id" o)) = true then
        (c.eraseP (isSelected (idFilter "_id" o)), none)
      else (c, some ErrNoDocuments) := by
  unfold Delete DeleteOne
  rw [hparse]
  by_cases h : c.any (isSelected (idFilter "_id" o)) = true
  · simp [h]
  · have hnone : ∀ d ∈ c, ¬ isSelected (idFilter "_id" o) d = true := by
      intro d hd hp
      exact h (List.any_eq_true.mpr ⟨d, hd, hp⟩)
    simp [h, List.eraseP_of_forall_not hnone]

theorem not_mem_eraseP_of_nodup (o : ObjectID) :
    ∀ c : Coll, (storedIDs c).Nodup →
      ∀ d ∈ c.eraseP (isSelected (idFilter "_id" o)), d.lookup "_id" ≠ some (.oid o) := by
  intro c
  induction c with
  | nil => intro _ d hd; simp at hd
  | cons a rest ih =>
    intro hnd d hd
    simp only [storedIDs, List.map_cons, List.nodup_cons] at hnd
    by_cases hp : isSelected (idFilter "_id" o) a = true
    · rw [List.eraseP_cons_of_pos hp] at hd
      rw [isSelected_idFilter] at hp
      have ha : a.lookup "_id" = some (.oid o) := by simpa using hp
      intro hdo
      exact hnd.1 (List.mem_map.mpr ⟨d, hd, hdo.trans ha.symm⟩)
    · rw [List.eraseP_cons_of_neg hp] at hd
      rcases List.mem_cons.mp hd with rfl | hd'
      · rw [isSelected_idFilter] at hp
        simpa using hp
      · exact ih hnd.2 d hd'

theorem Delete_of_absent (c : Coll) (id : String) (o : ObjectID)
    (hparse : ObjectIDFromHex id = some o)
    (habs : ∀ d ∈ c, d.lookup "_id" ≠ some (.oid o)) :
    Delete c id = (c, some ErrNoDocuments) := by
  rw [Delete_eq c id o hparse, if_neg]
  intro h
  obtain ⟨d, hd, hid⟩ := (any_idFilter c "_id" o).mp h
  exact habs d hd hid

theorem Delete_of_present (c : Coll) (id : String) (o : ObjectID)
    (hparse : ObjectIDFromHex id = some o)
    (hpres : ∃ d ∈ c, d.lookup "_id" = some (.oid o)) :
    Delete c id = (c.eraseP (isSelected (idFilter "_id" o)), none) := by
  rw [Delete_eq c id o hparse, if_pos ((any_idFilter c "_id" o).mpr hpres)]

theorem JobCategoryRepository_Delete_of_referenced (db : Database) (id : String)
    (o : ObjectID) (hparse : ObjectIDFromHex id = some o)
    (href : ∃ j ∈ db .job, j.lookup "category_id" = some (.oid o)) :
    JobCategoryRepository.Delete db id = (db, some ErrNoDocuments) := by
  unfold JobCategoryRepository.Delete
  rw [hparse]
  simp only [CountDocuments_idFilter]
  have hpos : ((List.countP (isSelected (idFilter "category_id" o)) (db .job) : Nat) : Int) > 0 := by
    have : 0 < List.countP (isSelected (idFilter "category_id" o)) (db .job) := by
      rw [List.countP_pos_iff]
      obtain ⟨j, hj, hc⟩ := href
      exact ⟨j, hj, by simp [isSelected_idFilter, hc]⟩
    omega
  rw [if_pos hpos]

theorem JobCategoryRepository_Delete_of_free (db : Database) (id : String)
    (o : ObjectID) (hparse : ObjectIDFromHex id = some o)
    (hfree : ∀ j ∈ db .job, j.lookup "category_id" ≠ some (.oid o)) :
    JobCategoryRepository.Delete db id =
      (Function.update db .jobCategory (Delete (db .jobCategory) id).1,
        (Delete (db .jobCategory) id).2) := by
  unfold JobCategoryRepository.Delete Delete
  rw [hparse]
  simp only [CountDocuments_idFilter]
  have hzero : ¬ ((List.countP (isSelected (idFilter "category_id" o)) (db .job) : Nat) : Int) > 0 := by
    have : List.countP (isSelected (idFilter "category_id" o)) (db .job) = 0 := by
      rw [List.countP_eq_zero]
      intro j hj
      simp [isSelected_idFilter, hfree j hj]
    omega
  rw [if_neg hzero]
  simp only [DeleteOne]
  split <;> rfl

theorem Repository_Delete_eq (e : Entity) (db : Database) (id : String) (o : ObjectID)
    (hparse : ObjectIDFromHex id = some o)
    (hfree : e = .jobCategory → ∀ j ∈ db .job, j.lookup "category_id" ≠ some (.oid o)) :
    Repository.Delete e db id =
      (Function.update db e (Delete (db e) id).1, (Delete (db e) id).2) := by
  cases e <;> first
    | rfl
    | exact JobCategoryRepository_Delete_of_free db id o hparse (hfree rfl)

theorem Repository_Delete_invalid (e : Entity) (db : Database) (id : String)
    (hbad : ¬ isObjectIDHex id) : Repository.Delete e db id = (db, some ErrInvalidHex) := by
  have hnone := (ObjectIDFromHex_eq_none_iff id).mpr hbad
  cases e <;>
    simp [Repository.Delete, JobCategoryRepository.Delete, Delete, hnone]

/-- C17 (counterexample): the job category `040404040404040404040404` is stored, but a
job references it, and the first `Delete` of the category repository already returns
`mongo.ErrNoDocuments` and removes nothing. -/
theorem Delete_first_call_blocked :
    (∃ d ∈ categoryDB .jobCategory,
      d.lookup "_id" = some (.oid ⟨[4, 4, 4, 4, 4, 4, 4, 4, 4, 4, 4, 4]⟩)) ∧
    (Repository.Delete .jobCategory categoryDB "040404040404040404040404").2 =
      some ErrNoDocuments ∧
    (Repository.Delete .jobCategory categoryDB "040404040404040404040404").1 .jobCategory =
      categoryDB .jobCategory := by
  decide

/-- C17 (amended): for every repository and every id of a stored document, which for the
job category repository no job references, two `Delete` calls in sequence return success
and then `mongo.ErrNoDocuments`, the document being gone after the first; and `Delete`
with an id that is not 24 hexadecimal digits fails and leaves the database as it is. -/
theorem Delete_twice (e : Entity) (db : Database) (id : String) :
    (¬ isObjectIDHex id → Repository.Delete e db id = (db, some ErrInvalidHex)) ∧
    (∀ objID, ObjectIDFromHex id = some objID →
      (∃ d ∈ db e, d.lookup "_id" = some (.oid objID)) →
      UniqueIDs (db e) →
      (e = .jobCategory → ∀ j ∈ db .job, j.lookup "category_id" ≠ some (.oid objID)) →
        (Repository.Delete e db id).2 = none ∧
        (∀ d ∈ (Repository.Delete e db id).1 e, d.lookup "_id" ≠ some (.oid objID)) ∧
        (Repository.Delete e (Repository.Delete e db id).1 id).2 = some ErrNoDocuments) := by
  refine ⟨Repository_Delete_invalid e db id, ?_⟩
  intro objID hparse hstored hU hfree
  have h1 := Repository_Delete_eq e db id objID hparse hfree
  have hdel := Delete_of_present (db e) id objID hparse hstored
  have hgone : ∀ d ∈ (Repository.Delete e db id).1 e, d.lookup "_id" ≠ some (.oid objID) := by
    rw [h1, hdel]
    simp only [Function.update_same]
    exact not_mem_eraseP_of_nodup objID (db e) hU.1
  refine ⟨by rw [h1, hdel], hgone, ?_⟩
  have hfree' : e = .jobCategory →
      ∀ j ∈ (Repository.Delete e db id).1 .job, j.lookup "category_id" ≠ some (.oid objID) := by
    intro he
    subst he
    rw [h1]
    simpa [Function.update] using hfree rfl
  rw [Repository_Delete_eq e _ id objID hparse hfree',
    Delete_of_absent _ id objID hparse hgone]

/-- Witness for C17 (amended): the stored skill `Go` is deleted, then reported missing;
a malformed id is refused. -/
theorem Delete_twice_witness :
    (¬ isObjectIDHex "xyz" ∧ (Repository.Delete .skill skillDB "xyz").2 = some ErrInvalidHex) ∧
    (ObjectIDFromHex "010101010101010101010101" =
        some ⟨[1, 1, 1, 1, 1, 1, 1, 1, 1, 1, 1, 1]⟩ ∧
      (∃ d ∈ skillDB .skill,
        d.lookup "_id" = some (.oid ⟨[1, 1, 1, 1, 1, 1, 1, 1, 1, 1, 1, 1]⟩)) ∧
      UniqueIDs (skillDB .skill)) ∧
    (Repository.Delete .skill skillDB "010101010101010101010101").2 = none ∧
    (∀ d ∈ (Repository.Delete .skill skillDB "010101010101010101010101").1 .skill,
      d.lookup "_id" ≠ some (.oid ⟨[1, 1, 1, 1, 1, 1, 1, 1, 1, 1, 1, 1]⟩)) ∧
    (Repository.Delete .skill
        (Repository.Delete .skill skillDB "010101010101010101010101").1
        "010101010101010101010101").2 = some ErrNoDocuments :=
  ⟨⟨fun h => absurd h.1 (by decide),
    congrArg Prod.snd
      ((Delete_twice .skill skillDB "xyz").1 (fun h => absurd h.1 (by decide)))⟩,
   ⟨by decide, by decide, by decide⟩,
   (Delete_twice .skill skillDB "010101010101010101010101").2
     ⟨[1, 1, 1, 1, 1, 1, 1, 1, 1, 1, 1, 1]⟩ (by decide) (by decide) (by decide)
     (fun h => absurd h (by decide))⟩

/-- C20: for every store state and every category id, when at least one job has the id
as `category_id`, `JobCategoryRepository.Delete` returns an error and leaves the whole
database, the categories and the jobs included, as it is; when no job references the
id and the category is stored, it returns no error, the jobs are untouched and a
following `GetByID` of the id fails. -/
theorem JobCategory_Delete_guarded (db : Database) (id : String) (objID : ObjectID)
    (hparse : ObjectIDFromHex id = some objID) :
    ((∃ j ∈ db .job, j.lookup "category_id" = some (.oid objID)) →
      JobCategoryRepository.Delete db id = (db, some ErrNoDocuments)) ∧
    ((∀ j ∈ db .job, j.lookup "category_id" ≠ some (.oid objID)) →
      (∃ d ∈ db .jobCategory, d.lookup "_id" = some (.oid objID)) →
      UniqueIDs (db .jobCategory) →
        (JobCategoryRepository.Delete db id).2 = none ∧
        (JobCategoryRepository.Delete db id).1 .job = db .job ∧
        Repository.GetByID .jobCategory (JobCategoryRepository.Delete db id).1 id =
          .error ErrNoDocuments) := by
  refine ⟨JobCategoryRepository_Delete_of_referenced db id objID hparse, ?_⟩
  intro hfree hstored hU
  rw [JobCategoryRepository_Delete_of_free db id objID hparse hfree,
    Delete_of_present (db .jobCategory) id objID hparse hstored]
  refine ⟨rfl, by simp [Function.update], ?_⟩
  have hgone := not_mem_eraseP_of_nodup objID (db .jobCategory) hU.1
  simp [Repository.GetByID, GetByID, hparse, FindOne,
    (find_idFilter_eq_none _ objID).mpr hgone]

/-- Witness for C20: the category of a stored job cannot be deleted; once the jobs
collection is empty the same category is deleted and no longer found. -/
theorem JobCategory_Delete_guarded_witness :
    (ObjectIDFromHex "040404040404040404040404" =
        some ⟨[4, 4, 4, 4, 4, 4, 4, 4, 4, 4, 4, 4]⟩ ∧
      (∃ j ∈ categoryDB .job,
        j.lookup "category_id" = some (.oid ⟨[4, 4, 4, 4, 4, 4, 4, 4, 4, 4, 4, 4]⟩))) ∧
    JobCategoryRepository.Delete categoryDB "040404040404040404040404" =
      (categoryDB, some ErrNoDocuments) ∧
    (JobCategoryRepository.Delete (Function.update categoryDB .job [])
        "040404040404040404040404").2 = none ∧
    (JobCategoryRepository.Delete (Function.update categoryDB .job [])
        "040404040404040404040404").1 .job = (Function.update categoryDB .job []) .job ∧
    Repository.GetByID .jobCategory
        (JobCategoryRepository.Delete (Function.update categoryDB .job [])
          "040404040404040404040404").1 "040404040404040404040404" =
      .error ErrNoDocuments :=
  ⟨⟨by decide, by decide⟩,
   (JobCategory_Delete_guarded categoryDB "040404040404040404040404"
     ⟨[4, 4, 4, 4, 4, 4, 4, 4, 4, 4, 4, 4]⟩ (by decide)).1 (by decide),
   (JobCategory_Delete_guarded (Function.update categoryDB .job [])
     "040404040404040404040404" ⟨[4, 4, 4, 4, 4, 4, 4, 4, 4, 4, 4, 4]⟩ (by decide)).2
     (by decide) (by decide) (by decide)⟩

/-! ## Hex form of an object id -/

theorem hexVal_hexDigit (n : Nat) (h : n < 16) : hexVal (hexDigit n) = some n := by
  interval_cases n <;> rfl

theorem hexDecode_hex (bs : List Nat) (h : ∀ b ∈ bs, b < 256) :
    hexDecode (bs.flatMap (fun b => [hexDigit (b / 16), hexDigit (b % 16)])) = some bs := by
  induction bs with
  | nil => rfl
  | cons b rest ih =>
    have hb : b < 256 := h b (List.mem_cons_self _ _)
    have hrest := ih (fun b' hb' => h b' (List.mem_cons_of_mem _ hb'))
    show hexDecode (hexDigit (b / 16) :: hexDigit (b % 16) ::
      rest.flatMap (fun b => [hexDigit (b / 16), hexDigit (b % 16)])) = some (b :: rest)
    have hsum : 16 * (b / 16) + b % 16 = b := by omega
    simp only [hexDecode, hexVal_hexDigit (b / 16) (by omega),
      hexVal_hexDigit (b % 16) (by omega), hrest, hsum]

theorem hex_chars (bs : List Nat) (h : ∀ b ∈ bs, b < 256) :
    ∀ c ∈ bs.flatMap (fun b => [hexDigit (b / 16), hexDigit (b % 16)]),
      (hexVal c).isSome = true := by
  intro c hc
  simp only [List.mem_flatMap, List.mem_cons, List.mem_singleton, List.mem_nil_iff,
    or_false] at hc
  obtain ⟨b, hb, rfl | rfl⟩ := hc
  · rw [hexVal_hexDigit _ (by have := h b hb; omega)]; rfl
  · rw [hexVal_hexDigit _ (by omega)]; rfl

theorem length_hex (bs : List Nat) :
    (bs.flatMap (fun b => [hexDigit (b / 16), hexDigit (b % 16)])).length = 2 * bs.length := by
  induction bs with
  | nil => rfl
  | cons b rest ih =>
    show (hexDigit (b / 16) :: hexDigit (b % 16) ::
      rest.flatMap (fun b => [hexDigit (b / 16), hexDigit (b % 16)])).length = _
    simp only [List.length_cons, ih]
    omega

/-- Parsing the hex form of a twelve-byte id gives the id back. -/
theorem ObjectIDFromHex_Hex (id : ObjectID) (h : id.valid) :
    ObjectIDFromHex id.Hex = some id := by
  unfold ObjectIDFromHex ObjectID.Hex
  have hsize : String.utf8ByteSize
      ⟨id.bytes.flatMap (fun b => [hexDigit (b / 16), hexDigit (b % 16)])⟩ = 24 := by
    show String.utf8ByteSize.go _ = 24
    rw [utf8ByteSize_go_of_hex _ (hex_chars id.bytes h.2), length_hex, h.1]
  rw [if_neg (by simp [hsize])]
  simp only [hexDecode_hex id.bytes h.2, Option.map_some']

theorem lookupFails_of_absent (c : Coll) (id : ObjectID) (h : id.valid)
    (habs : ∀ d ∈ c, d.lookup "_id" ≠ some (.oid id)) : lookupFails c id :=
  ⟨ErrNoDocuments, by
    simp [GetByID, ObjectIDFromHex_Hex id h, FindOne, (find_idFilter_eq_none c id).mpr habs]⟩

theorem referenceMissing_iff (c : Coll) (id : ObjectID) :
    referenceMissing true c id = true ↔ lookupFails c id := by
  unfold referenceMissing lookupFails
  cases GetByID c id.Hex <;> simp

/-! ## Services: reference checks on create -/

theorem referenceMissing_false (c : Coll) (id : ObjectID) (h : ¬ lookupFails c id) :
    referenceMissing true c id = false :=
  Bool.eq_false_iff.mpr (fun ht => h ((referenceMissing_iff c id).mp ht))

/-- C18: in each service built with its dependencies (job, application, candidate skill,
job skill) and for every struct to create, the references are looked up in order and the
first lookup that fails makes the create return the message of that reference
(`recruiter`, `company`, `job category`, `job`, `candidate`, `skill` followed by
`not found`) with the database and the struct unchanged: the entity's own `Create` is
not run and nothing is inserted. In particular a job whose recruiter id names no stored
recruiter fails with `recruiter not found`. -/
theorem Create_checks_references (db : Database) (m : Model) (newID : ObjectID) :
    ((lookupFails (db .recruiter) (m.ref "recruiter_id") →
        NewJobServiceWithDeps.CreateJob db m newID = (db, m, some "recruiter not found")) ∧
      (¬ lookupFails (db .recruiter) (m.ref "recruiter_id") →
        lookupFails (db .company) (m.ref "company_id") →
        NewJobServiceWithDeps.CreateJob db m newID = (db, m, some "company not found")) ∧
      (¬ lookupFails (db .recruiter) (m.ref "recruiter_id") →
        ¬ lookupFails (db .company) (m.ref "company_id") →
        lookupFails (db .jobCategory) (m.ref "category_id") →
        NewJobServiceWithDeps.CreateJob db m newID =
          (db, m, some "job category not found"))) ∧
    ((lookupFails (db .job) (m.ref "job_id") →
        NewApplicationServiceWithDeps.CreateApplication db m newID =
          (db, m, some "job not found")) ∧
      (¬ lookupFails (db .job) (m.ref "job_id") →
        lookupFails (db .candidate) (m.ref "candidate_id") →
        NewApplicationServiceWithDeps.CreateApplication db m newID =
          (db, m, some "candidate not found"))) ∧
    ((lookupFails (db .candidate) (m.ref "candidate_id") →
        NewCandidateSkillServiceWithDeps.CreateCandidateSkill db m newID =
          (db, m, some "candidate not found")) ∧
      (¬ lookupFails (db .candidate) (m.ref "candidate_id") →
        lookupFails (db .skill) (m.ref "skill_id") →
        NewCandidateSkillServiceWithDeps.CreateCandidateSkill db m newID =
          (db, m, some "skill not found"))) ∧
    ((lookupFails (db .job) (m.ref "job_id") →
        NewJobSkillServiceWithDeps.CreateJobSkill db m newID =
          (db, m, some "job not found")) ∧
      (¬ lookupFails (db .job) (m.ref "job_id") →
        lookupFails (db .skill) (m.ref "skill_id") →
        NewJobSkillServiceWithDeps.CreateJobSkill db m newID =
          (db, m, some "skill not found"))) ∧
    ((m.ref "recruiter_id").valid →
      (∀ d ∈ db .recruiter, d.lookup "_id" ≠ some (.oid (m.ref "recruiter_id"))) →
      NewJobServiceWithDeps.CreateJob db m newID = (db, m, some "recruiter not found")) := by
  have hrec : lookupFails (db .recruiter) (m.ref "recruiter_id") →
      NewJobServiceWithDeps.CreateJob db m newID = (db, m, some "recruiter not found") := by
    intro h
    simp [JobService.CreateJob, NewJobServiceWithDeps, (referenceMissing_iff _ _).mpr h]
  refine ⟨⟨hrec, ?_, ?_⟩, ⟨?_, ?_⟩, ⟨?_, ?_⟩, ⟨?_, ?_⟩, ?_⟩
  · intro h1 h2
    simp [JobService.CreateJob, NewJobServiceWithDeps, referenceMissing_false _ _ h1,
      (referenceMissing_iff _ _).mpr h2]
  · intro h1 h2 h3
    simp [JobService.CreateJob, NewJobServiceWithDeps, referenceMissing_false _ _ h1,
      referenceMissing_false _ _ h2, (referenceMissing_iff _ _).mpr h3]
  · intro h1
    simp [ApplicationService.CreateApplication, NewApplicationServiceWithDeps,
      (referenceMissing_iff _ _).mpr h1]
  · intro h1 h2
    simp [ApplicationService.CreateApplication, NewApplicationServiceWithDeps,
      referenceMissing_false _ _ h1, (referenceMissing_iff _ _).mpr h2]
  · intro h1
    simp [CandidateSkillService.CreateCandidateSkill, NewCandidateSkillServiceWithDeps,
      (referenceMissing_iff _ _).mpr h1]
  · intro h1 h2
    simp [CandidateSkillService.CreateCandidateSkill, NewCandidateSkillServiceWithDeps,
      referenceMissing_false _ _ h1, (referenceMissing_iff _ _).mpr h2]
  · intro h1
    simp [JobSkillService.CreateJobSkill, NewJobSkillServiceWithDeps,
      (referenceMissing_iff _ _).mpr h1]
  · intro h1 h2
    simp [JobSkillService.CreateJobSkill, NewJobSkillServiceWithDeps,
      referenceMissing_false _ _ h1, (referenceMissing_iff _ _).mpr h2]
  · intro hvalid habs
    exact hrec (lookupFails_of_absent _ _ hvalid habs)

/-- Witness for C18: each of the nine checks fails in turn on a small database, and the
job whose recruiter is not stored is refused with `recruiter not found`. -/
theorem Create_checks_references_witness :
    (NewJobServiceWithDeps.CreateJob skillDB orphanJob NilObjectID =
        (skillDB, orphanJob, some "recruiter not found") ∧
      NewJobServiceWithDeps.CreateJob recruiterDB orphanJob NilObjectID =
        (recruiterDB, orphanJob, some "company not found") ∧
      NewJobServiceWithDeps.CreateJob companyDB orphanJob NilObjectID =
        (companyDB, orphanJob, some "job category not found")) ∧
    (NewApplicationServiceWithDeps.CreateApplication skillDB orphanLink NilObjectID =
        (skillDB, orphanLink, some "job not found") ∧
      NewApplicationServiceWithDeps.CreateApplication linkDB orphanLink NilObjectID =
        (linkDB, orphanLink, some "candidate not found")) ∧
    (NewCandidateSkillServiceWithDeps.CreateCandidateSkill linkDB orphanLink NilObjectID =
        (linkDB, orphanLink, some "candidate not found") ∧
      NewCandidateSkillServiceWithDeps.CreateCandidateSkill candidateDB orphanLink
          NilObjectID = (candidateDB, orphanLink, some "skill not found")) ∧
    (NewJobSkillServiceWithDeps.CreateJobSkill skillDB orphanLink NilObjectID =
        (skillDB, orphanLink, some "job not found") ∧
      NewJobSkillServiceWithDeps.CreateJobSkill linkDB orphanLink NilObjectID =
        (linkDB, orphanLink, some "skill not found")) ∧
    ((orphanJob.ref "recruiter_id").valid ∧
      (∀ d ∈ skillDB .recruiter, d.lookup "_id" ≠ some (.oid (orphanJob.ref "recruiter_id"))) ∧
      NewJobServiceWithDeps.CreateJob skillDB orphanJob
          ⟨[7, 7, 7, 7, 7, 7, 7, 7, 7, 7, 7, 7]⟩ =
        (skillDB, orphanJob, some "recruiter not found")) :=
  ⟨⟨(Create_checks_references skillDB orphanJob NilObjectID).1.1 (by decide),
    (Create_checks_references recruiterDB orphanJob NilObjectID).1.2.1 (by decide)
      (by decide),
    (Create_checks_references companyDB orphanJob NilObjectID).1.2.2 (by decide)
      (by decide) (by decide)⟩,
   ⟨(Create_checks_references skillDB orphanLink NilObjectID).2.1.1 (by decide),
    (Create_checks_references linkDB orphanLink NilObjectID).2.1.2 (by decide)
      (by decide)⟩,
   ⟨(Create_checks_references linkDB orphanLink NilObjectID).2.2.1.1 (by decide),
    (Create_checks_references candidateDB orphanLink NilObjectID).2.2.1.2 (by decide)
      (by decide)⟩,
   ⟨(Create_checks_references skillDB orphanLink NilObjectID).2.2.2.1.1 (by decide),
    (Create_checks_references linkDB orphanLink NilObjectID).2.2.2.1.2 (by decide)
      (by decide)⟩,
   ⟨by decide, by decide,
    (Create_checks_references skillDB orphanJob ⟨[7, 7, 7, 7, 7, 7, 7, 7, 7, 7, 7, 7]⟩).2.2.2.2
      (by decide) (by decide)⟩⟩

/-! ## Recruiters and their company reference -/

/-- C19 (counterexample): the recruiter's company reference is present and names no
stored company (its lookup fails), yet `CreateRecruiter` returns no error and the
recruiter is inserted. -/
theorem CreateRecruiter_inserts_unresolved :
    orphanRecruiter.fields.lookup "company_id" =
      some (.oid ⟨[8, 8, 8, 8, 8, 8, 8, 8, 8, 8, 8, 8]⟩) ∧
    lookupFails (skillDB .company) ⟨[8, 8, 8, 8, 8, 8, 8, 8, 8, 8, 8, 8]⟩ ∧
    (RecruiterService.CreateRecruiter skillDB orphanRecruiter
      ⟨[7, 7, 7, 7, 7, 7, 7, 7, 7, 7, 7, 7]⟩).2.2 = none ∧
    (RecruiterService.CreateRecruiter skillDB orphanRecruiter
      ⟨[7, 7, 7, 7, 7, 7, 7, 7, 7, 7, 7, 7]⟩).1 .recruiter =
      [("_id", .oid ⟨[7, 7, 7, 7, 7, 7, 7, 7, 7, 7, 7, 7]⟩) :: orphanRecruiter.fields] := by
  decide

/-- C19 (amended): creating a recruiter makes no company lookup, whether the company
reference is null or present: `CreateRecruiter` is the recruiter repository's `Create`,
and its error, the struct after the call and the recruiters collection do not depend on
the stored companies. -/
theorem CreateRecruiter_no_company_lookup (db : Database) (recruiter : Model)
    (newID : ObjectID) (companies : Coll) :
    RecruiterService.CreateRecruiter db recruiter newID =
      Repository.Create .recruiter db recruiter newID ∧
    (RecruiterService.CreateRecruiter (Function.update db .company companies) recruiter
        newID).2 = (RecruiterService.CreateRecruiter db recruiter newID).2 ∧
    (RecruiterService.CreateRecruiter (Function.update db .company companies) recruiter
        newID).1 .recruiter =
      (RecruiterService.CreateRecruiter db recruiter newID).1 .recruiter := by
  refine ⟨rfl, ?_, ?_⟩ <;>
    simp [RecruiterService.CreateRecruiter, Repository.Create, Function.update]

/-! ## Pagination: the derived fields together -/

theorem NewPagination_bounds (page limit : Int) :
    (NewPagination page limit).Page = (if page < 1 then 1 else page) ∧
    (NewPagination page limit).Limit = (if limit < 1 ∨ limit > 100 then 10 else limit) ∧
    1 ≤ (NewPagination page limit).Page ∧
    1 ≤ (NewPagination page limit).Limit ∧ (NewPagination page limit).Limit ≤ 100 := by
  refine ⟨rfl, rfl, ?_, ?_, ?_⟩
  · show 1 ≤ (if page < 1 then 1 else page)
    split <;> omega
  · show 1 ≤ (if limit < 1 ∨ limit > 100 then 10 else limit)
    split <;> omega
  · show (if limit < 1 ∨ limit > 100 then 10 else limit) ≤ 100
    split <;> omega

/-- Where neither `total + limit - 1` nor `page * limit` leaves `int64`, `SetTotal`
stores `HasMore = true` exactly when the page is below `TotalPages`. -/
theorem SetTotal_hasMore_iff_of_no_overflow (p : Pagination) (total : Int)
    (hT : 0 ≤ total) (hL : 1 ≤ p.Limit) (hP : 1 ≤ p.Page)
    (hsum : total + p.Limit - 1 ≤ MaxInt64) (hprod : p.Page * p.Limit ≤ MaxInt64) :
    ∃ q, p.SetTotal total = some q ∧ (q.HasMore = true ↔ q.Page < q.TotalPages) := by
  obtain ⟨q, hq, _, hpage, _, hle, hlt⟩ :=
    SetTotal_totalPages_of_no_overflow p total hT hL hsum
  refine ⟨q, hq, ?_⟩
  have hmore : q.HasMore = decide (p.Page * p.Limit < total) := by
    have hw : wrap64 (p.Page * p.Limit) = p.Page * p.Limit := by
      apply wrap64_of_inInt64
      unfold inInt64 MinInt64
      constructor
      · have : 0 ≤ p.Page * p.Limit := Int.mul_nonneg (by omega) (by omega)
        omega
      · exact hprod
    have hne : p.Limit ≠ 0 := by omega
    simp only [Pagination.SetTotal, hne, if_false, Option.some.injEq] at hq
    rw [← hq, hw]
  rw [hmore, hpage, decide_eq_true_eq]
  constructor
  · intro h
    by_contra hcon
    have h1 : q.TotalPages ≤ p.Page := by omega
    have h2 : q.TotalPages * p.Limit ≤ p.Page * p.Limit :=
      Int.mul_le_mul_of_nonneg_right h1 (by omega)
    omega
  · intro h
    have h1 : p.Page ≤ q.TotalPages - 1 := by omega
    have h2 : p.Page * p.Limit ≤ (q.TotalPages - 1) * p.Limit :=
      Int.mul_le_mul_of_nonneg_right h1 (by omega)
    omega

/-- C28 (counterexample): for page 1, limit 2 and total `MaxInt64` the product
`page * limit = 2` does not overflow, yet after `NewPagination` and `SetTotal` the
envelope has `HasMore = true` with `TotalPages = -2^62`, so the page is not below
`TotalPages`. -/
theorem SetTotal_hasMore_contradicts_totalPages :
    (1 : Int) * 2 ≤ MaxInt64 ∧
    (NewPagination 1 2).SetTotal MaxInt64 =
      some ⟨1, 2, MaxInt64, -4611686018427387904, true⟩ ∧
    ¬ ((1 : Int) < -4611686018427387904) := by
  decide

/-- C29: for every page and limit and every total, `SetTotal` on the result of
`NewPagination` does not divide by zero (the limit lies in `1..100`) and keeps page
and limit; and `GetSkip` is the non-negative product `(Page - 1) * Limit` whenever that
product does not overflow. -/
theorem NewPagination_SetTotal_safe (page limit total : Int) :
    (∃ q, (NewPagination page limit).SetTotal total = some q ∧
      q.Page = (NewPagination page limit).Page ∧
      q.Limit = (NewPagination page limit).Limit ∧
      1 ≤ q.Limit ∧ q.Limit ≤ 100 ∧
      q.GetSkip = (NewPagination page limit).GetSkip) ∧
    (inInt64 page →
      ((NewPagination page limit).Page - 1) * (NewPagination page limit).Limit ≤ MaxInt64 →
      0 ≤ (NewPagination page limit).GetSkip ∧
      (NewPagination page limit).GetSkip =
        ((NewPagination page limit).Page - 1) * (NewPagination page limit).Limit) := by
  obtain ⟨hP, hLdef, hP1, hL1, hL100⟩ := NewPagination_bounds page limit
  have hne : (NewPagination page limit).Limit ≠ 0 := by omega
  refine ⟨⟨{ Page := (NewPagination page limit).Page
             Limit := (NewPagination page limit).Limit
             Total := total
             TotalPages := goDiv (wrap64 (wrap64 (total + (NewPagination page limit).Limit) - 1))
               (NewPagination page limit).Limit
             HasMore := decide (wrap64 ((NewPagination page limit).Page *
               (NewPagination page limit).Limit) < total) },
           by simp only [Pagination.SetTotal, hne, if_false], rfl, rfl, hL1, hL100, rfl⟩, ?_⟩
  intro hpage hprod
  have hPle : (NewPagination page limit).Page ≤ MaxInt64 := by
    rw [hP]
    unfold inInt64 MaxInt64 at *
    split <;> omega
  have hw1 : wrap64 ((NewPagination page limit).Page - 1) = (NewPagination page limit).Page - 1 := by
    apply wrap64_of_inInt64
    unfold inInt64 MinInt64 MaxInt64 at *
    constructor <;> omega
  have hnn : 0 ≤ ((NewPagination page limit).Page - 1) * (NewPagination page limit).Limit :=
    Int.mul_nonneg (by omega) (by omega)
  have hw2 : wrap64 (((NewPagination page limit).Page - 1) * (NewPagination page limit).Limit) =
      ((NewPagination page limit).Page - 1) * (NewPagination page limit).Limit := by
    apply wrap64_of_inInt64
    unfold inInt64 MinInt64
    constructor
    · omega
    · exact hprod
  have hskip : (NewPagination page limit).GetSkip =
      ((NewPagination page limit).Page - 1) * (NewPagination page limit).Limit := by
    unfold Pagination.GetSkip
    rw [hw1, hw2]
  exact ⟨by rw [hskip]; exact hnn, hskip⟩

/-- Witness for C29 on page 3, limit 20: the skip is 40. -/
theorem NewPagination_SetTotal_safe_witness :
    (inInt64 3 ∧
      ((NewPagination 3 20).Page - 1) * (NewPagination 3 20).Limit ≤ MaxInt64) ∧
    0 ≤ (NewPagination 3 20).GetSkip ∧
    (NewPagination 3 20).GetSkip = ((NewPagination 3 20).Page - 1) * (NewPagination 3 20).Limit :=
  ⟨⟨by decide, by decide⟩,
   (NewPagination_SetTotal_safe 3 20 0).2 (by decide) (by decide)⟩

/-! ## Services without dependencies -/

/-- C22: each service constructed without its dependency repositories makes no
reference lookup on create and returns exactly what the entity repository's `Create`
returns, for every struct, whether its references exist or not. -/
theorem Create_without_dependencies (db : Database) (m : Model) (newID : ObjectID) :
    NewJobService.CreateJob db m newID = Repository.Create .job db m newID ∧
    NewApplicationService.CreateApplication db m newID =
      Repository.Create .application db m newID ∧
    NewCandidateSkillService.CreateCandidateSkill db m newID =
      Repository.Create .candidateSkill db m newID ∧
    NewJobSkillService.CreateJobSkill db m newID = Repository.Create .jobSkill db m newID := by
  refine ⟨?_, ?_, ?_, ?_⟩ <;>
    simp [JobService.CreateJob, NewJobService, ApplicationService.CreateApplication,
      NewApplicationService, CandidateSkillService.CreateCandidateSkill,
      NewCandidateSkillService, JobSkillService.CreateJobSkill, NewJobSkillService,
      referenceMissing]

/-! ## Configuration -/

theorem Atoi_eq_some_iff (s : String) (n : Int) :
    Atoi s = some n ↔ decimalValue s = some n ∧ inInt64 n := by
  unfold Atoi inInt64
  cases h : decimalValue s with
  | none => simp
  | some m =>
    by_cases hr : MinInt64 ≤ m ∧ m ≤ MaxInt64
    · simp only [hr, and_self, if_true, Option.some.injEq]
      constructor
      · rintro rfl
        exact ⟨rfl, hr⟩
      · exact fun h' => h'.1
    · simp only [hr, if_false, Option.some.injEq]
      constructor
      · intro h'
        cases h'
      · rintro ⟨rfl, h'⟩
        exact absurd h' hr

theorem isValidPort_eq_none_iff (p : String) :
    isValidPort p = none ↔ ∃ n, decimalValue p = some n ∧ 1 ≤ n ∧ n ≤ 65535 := by
  unfold isValidPort
  cases h : Atoi p with
  | none =>
    simp only [reduceCtorEq, false_iff]
    rintro ⟨n, hd, h1, h2⟩
    have : Atoi p = some n :=
      (Atoi_eq_some_iff p n).mpr ⟨hd, by unfold inInt64 MinInt64 MaxInt64; omega⟩
    rw [h] at this
    cases this
  | some m =>
    have hd := ((Atoi_eq_some_iff p m).mp h).1
    by_cases hr : m < 1 ∨ m > 65535
    · simp only [hr, if_true, reduceCtorEq, false_iff]
      rintro ⟨n, hn, h1, h2⟩
      rw [hd] at hn
      cases hn
      omega
    · simp only [hr, if_false, true_iff]
      exact ⟨m, hd, by omega, by omega⟩

theorem Init_error_of_port (env : Env) (err : String)
    (h : isValidPort (if Getenv env "PORT" = "" then "8080" else Getenv env "PORT") =
      some err) :
    Init env = .error ("invalid PORT configuration: " ++ err) := by
  simp only [Init, h]

theorem Init_of_valid_port (env : Env)
    (h : isValidPort (if Getenv env "PORT" = "" then "8080" else Getenv env "PORT") = none) :
    Init env =
      if Getenv env "MONGO_URI" = "" then
        .error "MONGO_URI not found in environment variables"
      else if ¬ isValidMongoURI (Getenv env "MONGO_URI") then
        .error "invalid MONGO_URI: must start with 'mongodb://' or 'mongodb+srv://'"
      else
        .ok { MongoURI := Getenv env "MONGO_URI"
              Port := if Getenv env "PORT" = "" then "8080" else Getenv env "PORT"
              Timeout :=
                if Getenv env "TIMEOUT" ≠ "" then
                  match Atoi (Getenv env "TIMEOUT") with
                  | none => wrap64 (30 * Second)
                  | some t => if t ≤ 0 then wrap64 (30 * Second) else wrap64 (t * Second)
                else wrap64 (30 * Second) } := by
  simp only [Init, h]

theorem isValidPort_default : isValidPort "8080" = none := by decide

theorem isValidMongoURI_iff (u : String) :
    isValidMongoURI u = true ↔
      "mongodb://".data <+: u.data ∨ "mongodb+srv://".data <+: u.data := by
  simp [isValidMongoURI, List.isPrefixOf_iff_prefix]

/-- C24 (counterexample): `PORT` is set to the empty string, which is not a decimal
integer, and `Init` returns the configuration with port `8080` and no error. -/
theorem Init_accepts_empty_port :
    emptyPortEnv "PORT" = some "" ∧ decimalValue "" = none ∧
    Init emptyPortEnv =
      .ok { MongoURI := "mongodb://localhost:27017", Port := "8080",
            Timeout := 30000000000 } :=
  ⟨rfl, rfl, by rfl⟩

/-- C24 (amended): for every environment, `Init` returns an error when `PORT` is set to
a non-empty string that is not a decimal integer in `1..65535`, when `MONGO_URI` is
unset or empty, or when `MONGO_URI` starts with neither `mongodb://` nor
`mongodb+srv://`; an unset or empty `PORT` is treated as `8080` and accepted. -/
theorem Init_validates_port_and_uri (env : Env) :
    (∀ p, env "PORT" = some p → p ≠ "" →
      ¬ (∃ n, decimalValue p = some n ∧ 1 ≤ n ∧ n ≤ 65535) →
      ∃ err, Init env = .error err) ∧
    ((env "MONGO_URI" = none ∨ env "MONGO_URI" = some "") →
      ∃ err, Init env = .error err) ∧
    (∀ u, env "MONGO_URI" = some u →
      ¬ ("mongodb://".data <+: u.data) → ¬ ("mongodb+srv://".data <+: u.data) →
      ∃ err, Init env = .error err) ∧
    ((env "PORT" = none ∨ env "PORT" = some "") →
      ∀ u, env "MONGO_URI" = some u → u ≠ "" →
        ("mongodb://".data <+: u.data ∨ "mongodb+srv://".data <+: u.data) →
        ∃ cfg, Init env = .ok cfg ∧ cfg.Port = "8080" ∧ cfg.MongoURI = u) := by
  have hcases : ∀ cond : Getenv env "MONGO_URI" = "" ∨
      isValidMongoURI (Getenv env "MONGO_URI") = false, ∃ err, Init env = .error err := by
    intro cond
    cases hp : isValidPort (if Getenv env "PORT" = "" then "8080" else Getenv env "PORT") with
    | some err => exact ⟨_, Init_error_of_port env err hp⟩
    | none =>
      rw [Init_of_valid_port env hp]
      rcases cond with h | h
      · exact ⟨_, by rw [if_pos h]⟩
      · by_cases h0 : Getenv env "MONGO_URI" = ""
        · exact ⟨_, by rw [if_pos h0]⟩
        · exact ⟨_, by rw [if_neg h0, if_pos (by simp [h])]⟩
  refine ⟨?_, ?_, ?_, ?_⟩
  · intro p hp hne hbad
    have hg : Getenv env "PORT" = p := by simp [Getenv, hp]
    cases hv : isValidPort p with
    | none => exact absurd ((isValidPort_eq_none_iff p).mp hv) hbad
    | some err =>
      exact ⟨_, Init_error_of_port env err (by rw [hg, if_neg hne]; exact hv)⟩
  · intro h
    apply hcases
    left
    rcases h with h | h <;> simp [Getenv, h]
  · intro u hu h1 h2
    apply hcases
    right
    have hg : Getenv env "MONGO_URI" = u := by simp [Getenv, hu]
    rw [hg]
    cases hv : isValidMongoURI u with
    | false => rfl
    | true =>
      rcases (isValidMongoURI_iff u).mp hv with h | h
      · exact absurd h h1
      · exact absurd h h2
  · intro hport u hu hne hvalid
    have hg : Getenv env "MONGO_URI" = u := by simp [Getenv, hu]
    have hpg : Getenv env "PORT" = "" := by
      rcases hport with h | h <;> simp [Getenv, h]
    have hp : isValidPort (if Getenv env "PORT" = "" then "8080" else Getenv env "PORT") =
        none := by
      rw [if_pos hpg]
      exact isValidPort_default
    rw [Init_of_valid_port env hp, hg, if_neg hne,
      if_neg (by simp [(isValidMongoURI_iff u).mpr hvalid])]
    exact ⟨_, rfl, by simp [hpg], rfl⟩

/-- Witness for C24 (amended): port `70000`, no connection string, a connection string
of another scheme, and an environment with the connection string only. -/
theorem Init_validates_port_and_uri_witness :
    (badPortEnv "PORT" = some "70000" ∧ ∃ err, Init badPortEnv = .error err) ∧
    (emptyEnv "MONGO_URI" = none ∧ ∃ err, Init emptyEnv = .error err) ∧
    (badURIEnv "MONGO_URI" = some "postgres://localhost" ∧
      ∃ err, Init badURIEnv = .error err) ∧
    (defaultEnv "PORT" = none ∧
      ∃ cfg, Init defaultEnv = .ok cfg ∧ cfg.Port = "8080" ∧
        cfg.MongoURI = "mongodb://localhost:27017") :=
  ⟨⟨rfl, (Init_validates_port_and_uri badPortEnv).1 "70000" rfl (by decide)
      (by
        rintro ⟨n, hn, h1, h2⟩
        have h70 : decimalValue "70000" = some 70000 := by decide
        rw [h70] at hn
        cases hn
        omega)⟩,
   ⟨rfl, (Init_validates_port_and_uri emptyEnv).2.1 (Or.inl rfl)⟩,
   ⟨rfl, (Init_validates_port_and_uri badURIEnv).2.2.1 "postgres://localhost" rfl
      (by decide) (by decide)⟩,
   ⟨rfl, (Init_validates_port_and_uri defaultEnv).2.2.2 (Or.inl rfl)
      "mongodb://localhost:27017" rfl (by decide) (Or.inl (by decide))⟩⟩

/-- C25 (counterexample): `TIMEOUT` is set to `abc`, which is not an integer, and `Init`
returns the configuration with the default timeout of 30 seconds and no error. -/
theorem Init_accepts_invalid_timeout :
    badTimeoutEnv "TIMEOUT" = some "abc" ∧ Atoi "abc" = none ∧
    Init badTimeoutEnv =
      .ok { MongoURI := "mongodb://localhost:27017", Port := "8080",
            Timeout := 30000000000 } :=
  ⟨rfl, by decide, by rfl⟩

/-- C25 (amended): for every environment in which `TIMEOUT` is set to an invalid value
(a string that is not an integer, or an integer that is not positive), `Init` behaves
as if `TIMEOUT` were unset: it returns what it returns without the variable, and a
configuration it returns has the default timeout of 30 seconds. -/
theorem Init_defaults_invalid_timeout (env : Env) (t : String)
    (ht : env "TIMEOUT" = some t)
    (hbad : Atoi t = none ∨ ∃ n, Atoi t = some n ∧ n ≤ 0) :
    Init env = Init (Function.update env "TIMEOUT" none) ∧
    ∀ cfg, Init env = .ok cfg → cfg.Timeout = 30 * Second := by
  have hT : Getenv env "TIMEOUT" = t := by simp [Getenv, ht]
  have hT' : Getenv (Function.update env "TIMEOUT" none) "TIMEOUT" = "" := by
    simp [Getenv]
  have hP : Getenv (Function.update env "TIMEOUT" none) "PORT" = Getenv env "PORT" := by
    simp [Getenv, Function.update]
  have hM : Getenv (Function.update env "TIMEOUT" none) "MONGO_URI" =
      Getenv env "MONGO_URI" := by
    simp [Getenv, Function.update]
  have hw : wrap64 (30 * Second) = 30 * Second := by decide
  have htime : (if Getenv env "TIMEOUT" ≠ "" then
        match Atoi (Getenv env "TIMEOUT") with
        | none => wrap64 (30 * Second)
        | some t => if t ≤ 0 then wrap64 (30 * Second) else wrap64 (t * Second)
      else wrap64 (30 * Second)) = 30 * Second := by
    rw [hT]
    by_cases he : t = ""
    · simp [he, hw]
    · rw [if_pos he]
      rcases hbad with h | ⟨n, h, hn⟩
      · simp only [h, hw]
      · simp only [h, hn, if_true, hw]
  cases hp : isValidPort (if Getenv env "PORT" = "" then "8080" else Getenv env "PORT") with
  | some err =>
    rw [Init_error_of_port env err hp, Init_error_of_port _ err (by rw [hP]; exact hp)]
    exact ⟨rfl, fun cfg h => by cases h⟩
  | none =>
    rw [Init_of_valid_port env hp, Init_of_valid_port _ (by rw [hP]; exact hp), hP, hM, hT',
      htime]
    simp only [ne_eq, not_true_eq_false, if_false, hw]
    refine ⟨trivial, ?_⟩
    intro cfg h
    split at h
    · cases h
    · split at h
      · cases h
      · cases h
        rfl

/-- Witness for C25 (amended) on the environment with `TIMEOUT=abc`. -/
theorem Init_defaults_invalid_timeout_witness :
    (badTimeoutEnv "TIMEOUT" = some "abc" ∧ Atoi "abc" = none) ∧
    Init badTimeoutEnv = Init (Function.update badTimeoutEnv "TIMEOUT" none) ∧
    ∀ cfg, Init badTimeoutEnv = .ok cfg → cfg.Timeout = 30 * Second :=
  ⟨⟨rfl, by decide⟩,
   Init_defaults_invalid_timeout badTimeoutEnv "abc" rfl (Or.inl (by decide))⟩

/-! ## List handlers: page and limit -/

theorem SetTotal_NewPagination (page limit total : Int) :
    ∃ q, (NewPagination page limit).SetTotal total = some q ∧
      q.Page = (NewPagination page limit).Page ∧
      q.Limit = (NewPagination page limit).Limit := by
  obtain ⟨_, _, _, hL1, _⟩ := NewPagination_bounds page limit
  have hne : (NewPagination page limit).Limit ≠ 0 := by omega
  exact ⟨{ Page := (NewPagination page limit).Page
           Limit := (NewPagination page limit).Limit
           Total := total
           TotalPages := goDiv (wrap64 (wrap64 (total + (NewPagination page limit).Limit) - 1))
             (NewPagination page limit).Limit
           HasMore := decide (wrap64 ((NewPagination page limit).Page *
             (NewPagination page limit).Limit) < total) },
         by simp only [Pagination.SetTotal, hne, if_false], rfl, rfl⟩

theorem GetAllHandler_cases (e : Entity) (c : Collection) (query : String → String) :
    ((∃ err, GetAll e c (queryInt (query "page") 1) (queryInt (query "limit") 10)
          (handlerFilters e query) (query "sort") (query "order") = .error err) ∧
      GetAllHandler e c query = some ⟨500, .text ("Failed to retrieve " ++ pluralName e)⟩) ∨
    (∃ data total q,
      GetAll e c (queryInt (query "page") 1) (queryInt (query "limit") 10)
          (handlerFilters e query) (query "sort") (query "order") = .ok (data, total) ∧
      (NewPagination (queryInt (query "page") 1) (queryInt (query "limit") 10)).SetTotal
          total = some q ∧
      GetAllHandler e c query = some ⟨200, .page data q⟩) := by
  cases h : GetAll e c (queryInt (query "page") 1) (queryInt (query "limit") 10)
      (handlerFilters e query) (query "sort") (query "order") with
  | error err => exact Or.inl ⟨⟨err, rfl⟩, by simp only [GetAllHandler, h]⟩
  | ok r =>
    obtain ⟨data, total⟩ := r
    obtain ⟨q, hq, _, _⟩ :=
      SetTotal_NewPagination (queryInt (query "page") 1) (queryInt (query "limit") 10) total
    exact Or.inr ⟨data, total, q, rfl, hq, by simp only [GetAllHandler, h, hq]⟩

/-- C23: in every list handler the page and limit handed to `GetAll` are the parsed
integer when the query string is a decimal numeral that fits `int`, and the default
(page 1, limit 10) when it is empty, not a numeral or out of range; the handler always
answers, with 200 or 500 and never 400. -/
theorem list_handler_page_and_limit (e : Entity) (c : Collection) (query : String → String) :
    (∀ (s : String) (d n : Int), decimalValue s = some n → inInt64 n → queryInt s d = n) ∧
    (∀ (s : String) (d : Int),
      (s = "" ∨ decimalValue s = none ∨ ∃ n, decimalValue s = some n ∧ ¬ inInt64 n) →
      queryInt s d = d) ∧
    (∃ r, GetAllHandler e c query = some r ∧ (r.status = 200 ∨ r.status = 500) ∧
      (r.status = 500 ↔
        ∃ err, GetAll e c (queryInt (query "page") 1) (queryInt (query "limit") 10)
          (handlerFilters e query) (query "sort") (query "order") = .error err)) := by
  refine ⟨?_, ?_, ?_⟩
  · intro s d n hd hn
    have hne : s ≠ "" := by
      rintro rfl
      simp [decimalValue] at hd
    simp [queryInt, hne, (Atoi_eq_some_iff s n).mpr ⟨hd, hn⟩]
  · intro s d h
    by_cases hne : s = ""
    · simp [queryInt, hne]
    · have hnone : Atoi s = none := by
        cases ha : Atoi s with
        | none => rfl
        | some m =>
          obtain ⟨hd, hr⟩ := (Atoi_eq_some_iff s m).mp ha
          rcases h with h | h | ⟨n, hn, hbad⟩
          · exact absurd h hne
          · rw [h] at hd
            cases hd
          · rw [hd] at hn
            cases hn
            exact absurd hr hbad
      simp [queryInt, hne, hnone]
  · rcases GetAllHandler_cases e c query with ⟨⟨err, herr⟩, hr⟩ | ⟨data, total, q, hok, _, hr⟩
    · exact ⟨_, hr, Or.inr rfl, by simp [herr]⟩
    · exact ⟨_, hr, Or.inl rfl, by simp [hok]⟩

/-- Witness for C23: `7` is passed on, the empty string, `abc` and a numeral beyond
`int` give the default. -/
theorem list_handler_page_and_limit_witness :
    (decimalValue "7" = some 7 ∧ inInt64 7 ∧ queryInt "7" 1 = 7) ∧
    queryInt "" 10 = 10 ∧
    (decimalValue "abc" = none ∧ queryInt "abc" 10 = 10) ∧
    (decimalValue "99999999999999999999" = some 99999999999999999999 ∧
      ¬ inInt64 99999999999999999999 ∧ queryInt "99999999999999999999" 1 = 1) :=
  ⟨⟨by decide, by decide,
    (list_handler_page_and_limit .skill (memCollection skillStore plainFind) pageTwoQuery).1
      "7" 1 7 (by decide) (by decide)⟩,
   (list_handler_page_and_limit .skill (memCollection skillStore plainFind) pageTwoQuery).2.1
      "" 10 (Or.inl rfl),
   ⟨by decide,
    (list_handler_page_and_limit .skill (memCollection skillStore plainFind) pageTwoQuery).2.1
      "abc" 10 (Or.inr (Or.inl (by decide)))⟩,
   ⟨by decide, by decide,
    (list_handler_page_and_limit .skill (memCollection skillStore plainFind) pageTwoQuery).2.1
      "99999999999999999999" 1
      (Or.inr (Or.inr ⟨99999999999999999999, by decide, by decide⟩))⟩⟩

/-! ## The pagination envelope and the store's skip and limit -/

theorem NewPagination_idempotent (page limit : Int) :
    NewPagination (NewPagination page limit).Page (NewPagination page limit).Limit =
      NewPagination page limit := by
  obtain ⟨_, _, hP1, hL1, hL100⟩ := NewPagination_bounds page limit
  have h1 : ¬ (NewPagination page limit).Page < 1 := by omega
  have h2 : ¬ ((NewPagination page limit).Limit < 1 ∨ (NewPagination page limit).Limit > 100) := by
    omega
  show ({ Page := if (NewPagination page limit).Page < 1 then 1 else (NewPagination page limit).Page
          Limit := if (NewPagination page limit).Limit < 1 ∨ (NewPagination page limit).Limit > 100
            then 10 else (NewPagination page limit).Limit
          Total := 0, TotalPages := 0, HasMore := false } : Pagination) = _
  rw [if_neg h1, if_neg h2]
  rfl

theorem GetAll_ok_find (e : Entity) (c : Collection) (page limit : Int) (filters : Filters)
    (sort order : String) (data : List Document) (total : Int)
    (h : GetAll e c page limit filters sort order = .ok (data, total)) :
    c.Find (buildFilter e filters)
      { skip := (NewPagination page limit).GetSkip
        limit := (NewPagination page limit).Limit
        sort := (resolveSortField e sort, resolveSortOrder order) } = .ok data := by
  simp only [GetAll] at h
  cases hc : c.CountDocuments (buildFilter e filters) with
  | error err => simp [hc] at h
  | ok n =>
    simp only [hc] at h
    cases hf : c.Find (buildFilter e filters)
        { skip := (NewPagination page limit).GetSkip
          limit := (NewPagination page limit).Limit
          sort := (resolveSortField e sort, resolveSortOrder order) } with
    | error err => simp [hf] at h
    | ok ds =>
      simp only [hf, Except.ok.injEq, Prod.mk.injEq] at h
      rw [h.1]

/-- C30: when a list handler answers with a pagination envelope, the page and limit in
the envelope are those of `NewPagination` on the raw pair, and the page fetch of the
repository ran with the skip computed from the envelope's page and limit and with the
envelope's limit; `NewPagination` is idempotent on every raw pair. -/
theorem envelope_matches_repository (e : Entity) (c : Collection) (query : String → String)
    (data : List Document) (p : Pagination)
    (h : GetAllHandler e c query = some ⟨200, .page data p⟩) :
    p.Page = (NewPagination (queryInt (query "page") 1) (queryInt (query "limit") 10)).Page ∧
    p.Limit = (NewPagination (queryInt (query "page") 1) (queryInt (query "limit") 10)).Limit ∧
    c.Find (buildFilter e (handlerFilters e query))
      { skip := p.GetSkip
        limit := p.Limit
        sort := (resolveSortField e (query "sort"), resolveSortOrder (query "order")) } =
      .ok data ∧
    ∀ page limit : Int,
      NewPagination (NewPagination page limit).Page (NewPagination page limit).Limit =
        NewPagination page limit := by
  rcases GetAllHandler_cases e c query with ⟨_, hr⟩ | ⟨data', total, q, hok, hq, hr⟩
  · rw [hr] at h
    simp at h
  · rw [hr] at h
    simp only [Option.some.injEq, Response.mk.injEq, Body.page.injEq, true_and] at h
    obtain ⟨hd, hqp⟩ := h
    subst hd hqp
    obtain ⟨q', hq', hpage, hlimit⟩ :=
      SetTotal_NewPagination (queryInt (query "page") 1) (queryInt (query "limit") 10) total
    rw [hq] at hq'
    cases hq'
    have hskip : q.GetSkip =
        (NewPagination (queryInt (query "page") 1) (queryInt (query "limit") 10)).GetSkip := by
      unfold Pagination.GetSkip
      rw [hpage, hlimit]
    refine ⟨hpage, hlimit, ?_, NewPagination_idempotent⟩
    rw [hskip, hlimit]
    exact GetAll_ok_find e c _ _ _ _ _ _ total hok

/-- Witness for C30 on the skills list request `page=2&limit=1`. -/
theorem envelope_matches_repository_witness :
    GetAllHandler .skill (memCollection skillStore plainFind) pageTwoQuery =
      some ⟨200, .page skillStore ⟨2, 1, 2, 2, false⟩⟩ ∧
    (2 : Int) = (NewPagination (queryInt (pageTwoQuery "page") 1)
      (queryInt (pageTwoQuery "limit") 10)).Page ∧
    (1 : Int) = (NewPagination (queryInt (pageTwoQuery "page") 1)
      (queryInt (pageTwoQuery "limit") 10)).Limit :=
  ⟨by rfl,
   (envelope_matches_repository .skill (memCollection skillStore plainFind) pageTwoQuery
     skillStore ⟨2, 1, 2, 2, false⟩ (by rfl)).1,
   (envelope_matches_repository .skill (memCollection skillStore plainFind) pageTwoQuery
     skillStore ⟨2, 1, 2, 2, false⟩ (by rfl)).2.1⟩

/-! ## Create and update handlers -/

theorem lookup_setField_ne (k k' : String) (v : BsonValue) (h : k' ≠ k) :
    ∀ d : Document, (setField k v d).lookup k' = d.lookup k' := by
  have hb : (k' == k) = false := by simpa using h
  intro d
  induction d with
  | nil => simp only [setField, List.lookup, hb]
  | cons kv rest ih =>
    obtain ⟨a, b⟩ := kv
    unfold setField
    by_cases ha : a = k
    · subst ha
      simp only [if_true, List.lookup, hb]
    · simp only [ha, if_false, List.lookup, ih]

theorem lookup_setField_self (k : String) (v : BsonValue) :
    ∀ d : Document, (setField k v d).lookup k = some v := by
  intro d
  induction d with
  | nil => simp [setField, List.lookup]
  | cons kv rest ih =>
    obtain ⟨a, b⟩ := kv
    unfold setField
    by_cases ha : a = k
    · subst ha
      simp [List.lookup]
    · have hne : (k == a) = false := by simpa using fun h => ha h.symm
      simp only [ha, if_false, List.lookup, hne]
      exact ih

theorem stampAudit_int (createdKey : String) (t1 t2 : BsonValue) (m : Model) (k : String)
    (h1 : k ≠ createdKey) (h2 : k ≠ "updated_time") (h3 : k ≠ "created_by")
    (h4 : k ≠ "updated_by") : (stampAudit createdKey t1 t2 m).int k = m.int k := by
  simp only [Model.int, stampAudit, Model.set, lookup_setField_ne _ _ _ h1,
    lookup_setField_ne _ _ _ h2, lookup_setField_ne _ _ _ h3, lookup_setField_ne _ _ _ h4]

/-- C21: for every decoded job body with `salary_max < salary_min`, `CreateJob` answers
400 with an error list that contains the `salary_max` entry, whatever the service would
do, and the database is untouched; and the handler hands to the service only jobs with
`salary_max >= salary_min`: two services that agree on those jobs give the same
outcome on every request. -/
theorem CreateJob_salary_range (validate : Model → List ValidationError) (db : Database)
    (t1 t2 : BsonValue) :
    (∀ (service : Model → Database × Model × Option String) (job : Model),
      job.int "salary_max" < job.int "salary_min" →
      JobHandler.CreateJob validate service db (some job) t1 t2 =
        (db, ⟨400, .errors (validate job ++ [salaryError])⟩) ∧
      salaryError ∈ validate job ++ [salaryError] ∧ salaryError.Field = "salary_max") ∧
    (∀ (service service' : Model → Database × Model × Option String),
      (∀ j : Model, j.int "salary_max" ≥ j.int "salary_min" → service j = service' j) →
      ∀ body, JobHandler.CreateJob validate service db body t1 t2 =
        JobHandler.CreateJob validate service' db body t1 t2) := by
  refine ⟨?_, ?_⟩
  · intro service job hlt
    refine ⟨?_, by simp, rfl⟩
    simp [JobHandler.CreateJob, hlt]
  · intro service service' hagree body
    cases body with
    | none => rfl
    | some job =>
      by_cases hlt : job.int "salary_max" < job.int "salary_min"
      · simp [JobHandler.CreateJob, hlt]
      · have hs : service (stampAudit "created_time" t1 t2 job) =
            service' (stampAudit "created_time" t1 t2 job) := by
          apply hagree
          rw [stampAudit_int _ _ _ _ _ (by decide) (by decide) (by decide) (by decide),
            stampAudit_int _ _ _ _ _ (by decide) (by decide) (by decide) (by decide)]
          omega
        simp only [JobHandler.CreateJob, hlt, if_false, hs]

/-- Witness for C21 on the body with `salary_min = 50000`, `salary_max = 40000`, with a
validator that reports nothing and the job service with its dependencies. -/
theorem CreateJob_salary_range_witness :
    underpaidJob.int "salary_max" < underpaidJob.int "salary_min" ∧
    JobHandler.CreateJob (fun _ => [])
        (fun j => NewJobServiceWithDeps.CreateJob companyDB j NilObjectID) companyDB
        (some underpaidJob) .null .null =
      (companyDB, ⟨400, .errors [salaryError]⟩) :=
  ⟨by decide,
   ((CreateJob_salary_range (fun _ => []) companyDB .null .null).1
     (fun j => NewJobServiceWithDeps.CreateJob companyDB j NilObjectID) underpaidJob
     (by decide)).1⟩

/-! ## Field updates: what they change -/

theorem forall2_self {R : Document → Document → Prop} (hrefl : ∀ x, R x x) :
    ∀ c : Coll, List.Forall₂ R c c := by
  intro c
  induction c with
  | nil => exact List.Forall₂.nil
  | cons d rest ih => exact List.Forall₂.cons (hrefl d) ih

theorem updateFirst_forall2 (p : Document → Bool) (f : Document → Document)
    {R : Document → Document → Prop} (hrefl : ∀ x, R x x)
    (hf : ∀ x, p x = true → R x (f x)) :
    ∀ c : Coll, List.Forall₂ R c (updateFirst p f c) := by
  intro c
  induction c with
  | nil => exact List.Forall₂.nil
  | cons d rest ih =>
    unfold updateFirst
    by_cases hp : p d = true
    · rw [if_pos hp]
      exact List.Forall₂.cons (hf d hp) (forall2_self hrefl rest)
    · rw [if_neg hp]
      exact List.Forall₂.cons (hrefl d) ih

theorem updateFirst_mem (p : Document → Bool) (f : Document → Document) :
    ∀ c : Coll, (∃ d ∈ c, p d = true) → ∃ d ∈ c, p d = true ∧ f d ∈ updateFirst p f c := by
  intro c
  induction c with
  | nil => rintro ⟨d, hd, _⟩; simp at hd
  | cons a rest ih =>
    rintro ⟨d, hd, hpd⟩
    unfold updateFirst
    by_cases hp : p a = true
    · rw [if_pos hp]
      exact ⟨a, List.mem_cons_self _ _, hp, List.mem_cons_self _ _⟩
    · rw [if_neg hp]
      rcases List.mem_cons.mp hd with rfl | hd'
      · exact absurd hpd hp
      · obtain ⟨d', hd'', hpd', hmem⟩ := ih ⟨d, hd', hpd⟩
        exact ⟨d', List.mem_cons_of_mem _ hd'', hpd', List.mem_cons_of_mem _ hmem⟩

theorem updateField_frame (field : String) (hfield : "_id" ≠ field) (c : Coll)
    (id value : String) (objID : ObjectID) (hparse : ObjectIDFromHex id = some objID)
    (hstored : ∃ d ∈ c, d.lookup "_id" = some (.oid objID)) (hv : value ≠ "") :
    (updateField field c id value).2 = none ∧
    List.Forall₂ (onlyFieldChanged field objID) c (updateField field c id value).1 ∧
    ∃ d ∈ (updateField field c id value).1,
      d.lookup "_id" = some (.oid objID) ∧ d.lookup field = some (.str value) := by
  have hsel : ∃ d ∈ c, isSelected (idFilter "_id" objID) d = true := by
    obtain ⟨d, hd, hid⟩ := hstored
    exact ⟨d, hd, by simp [isSelected_idFilter, hid]⟩
  obtain ⟨d0, hd0, hf0⟩ : ∃ d0, d0 ∈ c ∧
      c.find? (isSelected (idFilter "_id" objID)) = some d0 := by
    obtain ⟨d, hd, _, hf⟩ := find_idFilter_some c objID hstored
    exact ⟨d, hd, hf⟩
  have hres : updateField field c id value =
      (updateFirst (isSelected (idFilter "_id" objID)) (setField field (.str value)) c,
        none) := by
    simp only [updateField, hv, if_false, hparse, UpdateOne, hf0]
  rw [hres]
  refine ⟨rfl, ?_, ?_⟩
  · apply updateFirst_forall2
    · intro x
      exact ⟨fun _ => rfl, fun _ _ => rfl⟩
    · intro x hx
      refine ⟨fun hne => ?_, fun k hk => lookup_setField_ne field k _ hk x⟩
      rw [isSelected_idFilter] at hx
      exact absurd (by simpa using hx) hne
  · obtain ⟨d, _, hpd, hmem⟩ :=
      updateFirst_mem (isSelected (idFilter "_id" objID)) (setField field (.str value)) c hsel
    refine ⟨_, hmem, ?_, lookup_setField_self field _ d⟩
    rw [lookup_setField_ne field "_id" _ hfield d]
    rw [isSelected_idFilter] at hpd
    simpa using hpd

/-- C26: for every stored document and every non-empty new value, `UpdateStatus` changes
only `status`, and the two `UpdateProficiencyLevel` methods change only
`proficiency_level` and `proficiency_level_required`: the call returns no error, every
document with another id is unchanged, no other field of any document is changed
(`updated_time` and `updated_by` included), and a document with the id now holds the
new value. -/
theorem update_changes_only_its_field (c : Coll) (id value : String) (objID : ObjectID)
    (hparse : ObjectIDFromHex id = some objID)
    (hstored : ∃ d ∈ c, d.lookup "_id" = some (.oid objID)) (hv : value ≠ "") :
    ((ApplicationRepository.UpdateStatus c id value).2 = none ∧
      List.Forall₂ (onlyFieldChanged "status" objID) c
        (ApplicationRepository.UpdateStatus c id value).1 ∧
      ∃ d ∈ (ApplicationRepository.UpdateStatus c id value).1,
        d.lookup "_id" = some (.oid objID) ∧ d.lookup "status" = some (.str value)) ∧
    ((CandidateSkillRepository.UpdateProficiencyLevel c id value).2 = none ∧
      List.Forall₂ (onlyFieldChanged "proficiency_level" objID) c
        (CandidateSkillRepository.UpdateProficiencyLevel c id value).1 ∧
      ∃ d ∈ (CandidateSkillRepository.UpdateProficiencyLevel c id value).1,
        d.lookup "_id" = some (.oid objID) ∧
        d.lookup "proficiency_level" = some (.str value)) ∧
    ((JobSkillRepository.UpdateProficiencyLevel c id value).2 = none ∧
      List.Forall₂ (onlyFieldChanged "proficiency_level_required" objID) c
        (JobSkillRepository.UpdateProficiencyLevel c id value).1 ∧
      ∃ d ∈ (JobSkillRepository.UpdateProficiencyLevel c id value).1,
        d.lookup "_id" = some (.oid objID) ∧
        d.lookup "proficiency_level_required" = some (.str value)) :=
  ⟨updateField_frame "status" (by decide) c id value objID hparse hstored hv,
   updateField_frame "proficiency_level" (by decide) c id value objID hparse hstored hv,
   updateField_frame "proficiency_level_required" (by decide) c id value objID hparse
     hstored hv⟩

/-- Witness for C26 on the stored application and the new status `accepted`. -/
theorem update_changes_only_its_field_witness :
    (ObjectIDFromHex "010101010101010101010101" =
        some ⟨[1, 1, 1, 1, 1, 1, 1, 1, 1, 1, 1, 1]⟩ ∧
      (∃ d ∈ applicationStore,
        d.lookup "_id" = some (.oid ⟨[1, 1, 1, 1, 1, 1, 1, 1, 1, 1, 1, 1]⟩)) ∧
      "accepted" ≠ "") ∧
    (ApplicationRepository.UpdateStatus applicationStore "010101010101010101010101"
        "accepted").2 = none ∧
    List.Forall₂ (onlyFieldChanged "status" ⟨[1, 1, 1, 1, 1, 1, 1, 1, 1, 1, 1, 1]⟩)
      applicationStore
      (ApplicationRepository.UpdateStatus applicationStore "010101010101010101010101"
        "accepted").1 ∧
    ∃ d ∈ (ApplicationRepository.UpdateStatus applicationStore "010101010101010101010101"
        "accepted").1,
      d.lookup "_id" = some (.oid ⟨[1, 1, 1, 1, 1, 1, 1, 1, 1, 1, 1, 1]⟩) ∧
      d.lookup "status" = some (.str "accepted") :=
  ⟨⟨by decide, by decide, by decide⟩,
   (update_changes_only_its_field applicationStore "010101010101010101010101" "accepted"
     ⟨[1, 1, 1, 1, 1, 1, 1, 1, 1, 1, 1, 1]⟩ (by decide) (by decide) (by decide)).1⟩

/-! ## The status of stored applications -/

/-- C27 (failing input): the stored application has the status `applied`; the update
handler called on its id with the body `status = bogus` answers 200, and the stored
application then has a status outside the allowed values. -/
theorem update_breaks_status_invariant :
    statusInvariant (applicationDB .application) ∧
    (ApplicationHandler.UpdateApplicationStatus applicationDB "010101010101010101010101"
      (some "bogus")).2 = ⟨200, .empty⟩ ∧
    (ApplicationHandler.UpdateApplicationStatus applicationDB "010101010101010101010101"
      (some "bogus")).1 .application =
      [[("_id", .oid ⟨[1, 1, 1, 1, 1, 1, 1, 1, 1, 1, 1, 1]⟩), ("status", .str "bogus")]] ∧
    ¬ statusInvariant
      ((ApplicationHandler.UpdateApplicationStatus applicationDB "010101010101010101010101"
        (some "bogus")).1 .application) := by
  decide

/-! ## Pagination: totals within the range of `int64` -/

/-- C2 (amended): for every total `T >= 0`, limit `L >= 1` and page `P >= 1` such that
`T + L - 1` does not exceed the largest `int64`, `SetTotal(T)` on
`Pagination{Page: P, Limit: L}` returns, stores `Total = T` and makes `TotalPages` the
ceiling of `T / L`: the least integer `n` with `n * L >= T`. -/
theorem SetTotal_totalPages_ceiling (P L T : Int)
    (hT : 0 ≤ T) (hL : 1 ≤ L) (_hP : 1 ≤ P) (hsum : T + L - 1 ≤ MaxInt64) :
    ∃ q, Pagination.SetTotal ⟨P, L, 0, 0, false⟩ T = some q ∧ q.Total = T ∧
      T ≤ q.TotalPages * L ∧ ∀ n : Int, T ≤ n * L → q.TotalPages ≤ n := by
  obtain ⟨q, hq, htot, _, _, hle, hlt⟩ :=
    SetTotal_totalPages_of_no_overflow ⟨P, L, 0, 0, false⟩ T hT hL hsum
  refine ⟨q, hq, htot, hle, ?_⟩
  intro n hn
  by_contra hcon
  have h1 : n ≤ q.TotalPages - 1 := by omega
  have h2 : n * L ≤ (q.TotalPages - 1) * L :=
    Int.mul_le_mul_of_nonneg_right h1 (by omega)
  have h3 : (q.TotalPages - 1) * L < T := hlt
  omega

/-- Witness for C2 (amended): 25 documents at 10 per page make 3 pages. -/
theorem SetTotal_totalPages_ceiling_witness :
    ((0 : Int) ≤ 25 ∧ (1 : Int) ≤ 10 ∧ (1 : Int) ≤ 2 ∧ (25 : Int) + 10 - 1 ≤ MaxInt64) ∧
    Pagination.SetTotal ⟨2, 10, 0, 0, false⟩ 25 = some ⟨2, 10, 25, 3, true⟩ ∧
    ∃ q, Pagination.SetTotal ⟨2, 10, 0, 0, false⟩ 25 = some q ∧ q.Total = 25 ∧
      25 ≤ q.TotalPages * 10 ∧ ∀ n : Int, 25 ≤ n * 10 → q.TotalPages ≤ n :=
  ⟨⟨by decide, by decide, by decide, by decide⟩, by decide,
   SetTotal_totalPages_ceiling 2 10 25 (by decide) (by decide) (by decide) (by decide)⟩

/-- C28 (amended): for every page `P >= 1`, limit `L` with `1 <= L <= 100` and total
`T >= 0` such that neither `P * L` nor `T + L - 1` overflows, after `NewPagination(P, L)`
and `SetTotal(T)` the envelope keeps page `P` and limit `L` and has `HasMore = true`
exactly when `Page < TotalPages`. -/
theorem NewPagination_hasMore_iff_below_totalPages (P L T : Int)
    (hP : 1 ≤ P) (hL1 : 1 ≤ L) (hL100 : L ≤ 100) (hT : 0 ≤ T)
    (hprod : P * L ≤ MaxInt64) (hsum : T + L - 1 ≤ MaxInt64) :
    ∃ q, (NewPagination P L).SetTotal T = some q ∧ q.Page = P ∧ q.Limit = L ∧
      (q.HasMore = true ↔ q.Page < q.TotalPages) := by
  have hpage : (NewPagination P L).Page = P := by
    show (if P < 1 then 1 else P) = P
    rw [if_neg (by omega)]
  have hlimit : (NewPagination P L).Limit = L := by
    show (if L < 1 ∨ L > 100 then 10 else L) = L
    rw [if_neg (by omega)]
  obtain ⟨q, hq, hiff⟩ :=
    SetTotal_hasMore_iff_of_no_overflow (NewPagination P L) T hT
      (by rw [hlimit]; exact hL1) (by rw [hpage]; exact hP)
      (by rw [hlimit]; exact hsum) (by rw [hpage, hlimit]; exact hprod)
  obtain ⟨q', hq', hp', hl'⟩ := SetTotal_NewPagination P L T
  rw [hq] at hq'
  cases hq'
  exact ⟨q, hq, hp'.trans hpage, hl'.trans hlimit, hiff⟩

/-- Witness for C28 (amended): on page 2 of 25 documents at 10 per page there is more,
and page 2 is below the 3 pages. -/
theorem NewPagination_hasMore_iff_below_totalPages_witness :
    ((1 : Int) ≤ 2 ∧ (1 : Int) ≤ 10 ∧ (10 : Int) ≤ 100 ∧ (0 : Int) ≤ 25 ∧
      (2 : Int) * 10 ≤ MaxInt64 ∧ (25 : Int) + 10 - 1 ≤ MaxInt64) ∧
    (NewPagination 2 10).SetTotal 25 = some ⟨2, 10, 25, 3, true⟩ ∧
    ∃ q, (NewPagination 2 10).SetTotal 25 = some q ∧ q.Page = 2 ∧ q.Limit = 10 ∧
      (q.HasMore = true ↔ q.Page < q.TotalPages) :=
  ⟨⟨by decide, by decide, by decide, by decide, by decide, by decide⟩, by decide,
   NewPagination_hasMore_iff_below_totalPages 2 10 25 (by decide) (by decide) (by decide)
     (by decide) (by decide) (by decide)⟩

end GoMongoApi
